import Mathlib

/-!
Verification of the able-iot-challenge ingestion schema and read-time
unification layer.

The SQL data model and views are embedded from
`src/ingest_service/db/init/001_tables.sql` and `002_views.sql`; the
`side_switches` diagnostic query is embedded from
`src/analytics_service/src/pages/api/examples/run.ts`.  Tables are lists of
row structures; `NUMERIC` is modelled as `Rat`, timestamps as `Int`
(instants on a linear time line), SQL `NULL` as `Option`.  The ingestion
pipeline (a FastAPI service whose Python sources are not part of the
SQL/TS sources embedded here) is modelled from the specification where a
claim needs it; those definitions carry a `Modelled from the spec:` note.
-/

namespace IoT

/-- JSONB document stored in `raw_record.raw_message`.  Numbers are
modelled as rationals (Postgres `jsonb` keeps arbitrary-precision
numerics). -/
inductive Json where
  | jnull : Json
  | jbool (b : Bool) : Json
  | jnum (q : Rat) : Json
  | jstr (s : String) : Json
  | jarr (elems : List Json) : Json
  | jobj (fields : List (String × Json)) : Json

/-- Row of `device` (001_tables.sql): `id INT PRIMARY KEY, name TEXT NOT
NULL UNIQUE, init_date TIMESTAMPTZ`. -/
structure Device where
  id : Int
  name : String
  init_date : Option Int
deriving DecidableEq

/-- Row of `record_type` (001_tables.sql): `id SERIAL PRIMARY KEY, name
TEXT NOT NULL UNIQUE` (the optional firmware-version link is not touched
by any claim and is kept as an opaque optional id). -/
structure RecordType where
  id : Nat
  name : String
  version_id : Option Nat
deriving DecidableEq

/-- Row of `raw_record` (001_tables.sql): `id BIGSERIAL PRIMARY KEY,
raw_message JSONB NOT NULL, arrival_time TIMESTAMPTZ NOT NULL`. -/
structure RawRecord where
  id : Nat
  raw_message : Json
  arrival_time : Int

/-- Row of `ingest_error` (001_tables.sql): `raw_data_id BIGINT PRIMARY
KEY REFERENCES raw_record(id), error TEXT NOT NULL, created_at
TIMESTAMPTZ NOT NULL`. -/
structure IngestError where
  raw_data_id : Nat
  error : String
  created_at : Int
deriving DecidableEq

/-- Row of `processed_record` (001_tables.sql). -/
structure ProcessedRecord where
  id : Nat
  device_id : Int
  raw_data_id : Nat
  record_time : Int
  type : Nat
  value : Rat
deriving DecidableEq

/-- A database state: one list per table, in insertion order. -/
structure DBState where
  device : List Device
  record_type : List RecordType
  raw_record : List RawRecord
  ingest_error : List IngestError
  processed_record : List ProcessedRecord

/-- The logical-event key guarded by the unique index
`uq_processed_event(device_id, type, record_time, value)`. -/
def logicalKey (pr : ProcessedRecord) : Int × Nat × Int × Rat :=
  (pr.device_id, pr.type, pr.record_time, pr.value)

/-- Schema constraints of 001_tables.sql as a state invariant: primary
keys, the unique constraints `uq_device_name`, `uq_record_type_name`, the
unique indexes `uq_processed_by_raw`, `uq_processed_event`, and the
foreign keys into `raw_record`, `device` and `record_type`. -/
def wf (st : DBState) : Prop :=
  (st.raw_record.map (·.id)).Nodup ∧
  (st.device.map (·.id)).Nodup ∧
  (st.device.map (·.name)).Nodup ∧
  (st.record_type.map (·.id)).Nodup ∧
  (st.record_type.map (·.name)).Nodup ∧
  (st.processed_record.map (·.id)).Nodup ∧
  (st.processed_record.map (·.raw_data_id)).Nodup ∧
  (st.processed_record.map logicalKey).Nodup ∧
  (st.ingest_error.map (·.raw_data_id)).Nodup ∧
  (∀ pr ∈ st.processed_record, pr.raw_data_id ∈ st.raw_record.map (·.id)) ∧
  (∀ pr ∈ st.processed_record, pr.device_id ∈ st.device.map (·.id)) ∧
  (∀ pr ∈ st.processed_record, pr.type ∈ st.record_type.map (·.id)) ∧
  (∀ e ∈ st.ingest_error, e.raw_data_id ∈ st.raw_record.map (·.id))

instance (st : DBState) : Decidable (wf st) := by
  unfold wf; infer_instance

/-! ### The unification view (002_views.sql, `v_platform_extension_mm`) -/

/-- Output row of `v_platform_extension_mm`; `extension_mm` is nullable
(the `CASE` has no `ELSE`). -/
structure ExtRow where
  device_id : Int
  observed_at : Int
  extension_mm : Option Rat
deriving DecidableEq

/-- The `CASE` expression of the view: `WHEN rt.name =
'platform_extension_mm' THEN pr.value WHEN rt.name =
'platform_extension_ticks' THEN pr.value / 20.0 END`. -/
def extensionCase (name : String) (v : Rat) : Option Rat :=
  if name = "platform_extension_mm" then some v
  else if name = "platform_extension_ticks" then some (v / 20)
  else none

/-- `v_platform_extension_mm`: `FROM processed_record pr JOIN record_type
rt ON rt.id = pr.type WHERE rt.name IN
('platform_extension_mm','platform_extension_ticks')`. -/
def v_platform_extension_mm (st : DBState) : List ExtRow :=
  st.processed_record.flatMap (fun pr =>
    (st.record_type.filter (fun rt =>
        rt.id == pr.type &&
        (rt.name == "platform_extension_mm" ||
         rt.name == "platform_extension_ticks"))).map
      (fun rt =>
        { device_id := pr.device_id
          observed_at := pr.record_time
          extension_mm := extensionCase rt.name pr.value }))

/-! ### The diagnostic join view (002_views.sql, `ingest_parse`)

The view projects `COALESCE(pr.device_id, (rr.raw_message->>'device_id')::int)`.
Postgres evaluates `COALESCE` arguments left to right and stops at the
first non-null one; the text-to-integer cast raises a runtime error on a
non-integer text, so evaluating the view is a fallible computation and is
embedded in `Except`. -/

/-- Text of a JSONB number.  Postgres prints `numeric` exactly: an
integral numeric prints as its integer digits (so casting the text to
`int` succeeds), a non-integral numeric prints with a fractional part (so
the cast fails).  The non-integral rendering here is a placeholder that
is likewise never integer-formatted. -/
def ratJsonText (q : Rat) : String :=
  if q.den = 1 then toString q.num
  else toString q.num ++ "." ++ toString q.den

mutual

/-- Textual rendering of a JSONB value, used by `->>` when the extracted
field is itself an object or an array (Postgres then returns the value's
JSON text).  String escaping inside rendered composites is immaterial to
every claim: the cast only ever distinguishes integer-formatted text. -/
def renderJson : Json → String
  | .jnull => "null"
  | .jbool true => "true"
  | .jbool false => "false"
  | .jnum q => ratJsonText q
  | .jstr s => "\"" ++ s ++ "\""
  | .jarr xs => "[" ++ renderJsonList xs ++ "]"
  | .jobj fs => "\x7b" ++ renderJsonFields fs ++ "\x7d"

/-- Comma-separated rendering of array elements. -/
def renderJsonList : List Json → String
  | [] => ""
  | [x] => renderJson x
  | x :: xs => renderJson x ++ "," ++ renderJsonList xs

/-- Comma-separated rendering of object fields. -/
def renderJsonFields : List (String × Json) → String
  | [] => ""
  | [(k, v)] => "\"" ++ k ++ "\":" ++ renderJson v
  | (k, v) :: fs => "\"" ++ k ++ "\":" ++ renderJson v ++ "," ++ renderJsonFields fs

end

/-- First binding of a key in a JSONB object (`jsonb` stores at most one
binding per key). -/
def lookupField (fields : List (String × Json)) (k : String) : Option Json :=
  (fields.find? (fun kv => kv.fst == k)).map (·.snd)

/-- The `->>` operator: extract an object field as text.  Returns SQL
`NULL` when the document is not an object, the key is absent, or the
field is JSON `null`. -/
def jsonbFieldAsText (j : Json) (k : String) : Option String :=
  match j with
  | .jobj fs =>
    match lookupField fs k with
    | none => none
    | some .jnull => none
    | some (.jstr s) => some s
    | some (.jbool true) => some "true"
    | some (.jbool false) => some "false"
    | some (.jnum q) => some (ratJsonText q)
    | some v => some (renderJson v)
  | _ => none

/-- Decimal digits to a natural number; `none` unless the list is
non-empty and all digits. -/
def digitsToNat (cs : List Char) : Option Nat :=
  if cs ≠ [] ∧ cs.all Char.isDigit then
    some (cs.foldl (fun a c => a * 10 + (c.toNat - 48)) 0)
  else none

/-- The Postgres `text::int` cast: optional surrounding spaces, optional
sign, decimal digits; anything else raises `invalid input syntax`. -/
def pgIntCast (s : String) : Option Int :=
  let cs := ((s.data.dropWhile (· == ' ')).reverse.dropWhile (· == ' ')).reverse
  match cs with
  | '-' :: rest => (digitsToNat rest).map (fun n => -(n : Int))
  | '+' :: rest => (digitsToNat rest).map (fun n => (n : Int))
  | rest => (digitsToNat rest).map (fun n => (n : Int))

/-- Evaluate `(text)::int` on a nullable text: `NULL` casts to `NULL`,
non-integer text raises. -/
def castTextInt : Option String → Except String (Option Int)
  | none => Except.ok none
  | some s =>
    match pgIntCast s with
    | some n => Except.ok (some n)
    | none => Except.error ("invalid input syntax for type integer: " ++ s)

/-- SQL `LEFT JOIN`: every left row paired with each matching right row,
or with `NULL` when no right row matches. -/
def leftJoin {α β : Type} (xs : List α) (ms : α → List β) : List (α × Option β) :=
  xs.flatMap (fun a =>
    match ms a with
    | [] => [(a, none)]
    | l => l.map (fun b => (a, some b)))

/-- Row-by-row evaluation of a projection that can raise, aborting the
query on the first error (SQL statement semantics). -/
def mapExcept {α β : Type} (f : α → Except String β) : List α → Except String (List β)
  | [] => Except.ok []
  | x :: xs =>
    match f x with
    | Except.error e => Except.error e
    | Except.ok y =>
      match mapExcept f xs with
      | Except.error e => Except.error e
      | Except.ok ys => Except.ok (y :: ys)

/-- Output row of `ingest_parse`. -/
structure IngestParseRow where
  raw_data_id : Nat
  device_id : Option Int
  parse_ok : Bool
  error : Option String
deriving DecidableEq

/-- Processed rows matching a raw id (`pr.raw_data_id = rr.id`). -/
def prMatches (st : DBState) (rid : Nat) : List ProcessedRecord :=
  st.processed_record.filter (fun pr => pr.raw_data_id == rid)

/-- Error rows matching a raw id (`ie.raw_data_id = rr.id`). -/
def ieMatches (st : DBState) (rid : Nat) : List IngestError :=
  st.ingest_error.filter (fun ie => ie.raw_data_id == rid)

/-- Projection of one joined tuple of `ingest_parse`:
`raw_data_id`, `COALESCE(pr.device_id, (raw_message->>'device_id')::int)`
(short-circuit: the cast is only evaluated when `pr.device_id` is null),
`pr.id IS NOT NULL`, `ie.error`. -/
def ingestParseProj (t : (RawRecord × Option ProcessedRecord) × Option IngestError) :
    Except String IngestParseRow :=
  match t.1.2 with
  | some pr =>
    Except.ok
      { raw_data_id := t.1.1.id
        device_id := some pr.device_id
        parse_ok := true
        error := t.2.map (·.error) }
  | none =>
    match castTextInt (jsonbFieldAsText t.1.1.raw_message "device_id") with
    | Except.error e => Except.error e
    | Except.ok d =>
      Except.ok
        { raw_data_id := t.1.1.id
          device_id := d
          parse_ok := false
          error := t.2.map (·.error) }

/-- The `ingest_parse` view: `FROM raw_record rr LEFT JOIN
processed_record pr ON pr.raw_data_id = rr.id LEFT JOIN ingest_error ie
ON ie.raw_data_id = rr.id`, then the projection above. -/
def ingest_parse (st : DBState) : Except String (List IngestParseRow) :=
  mapExcept ingestParseProj
    (leftJoin (leftJoin st.raw_record (fun rr => prMatches st rr.id))
      (fun p => ieMatches st p.1.id))

/-! ### Metrics over the unification view (002_views.sql and run.ts)

A window partition is represented by the list of the partition's rows in
`ORDER BY observed_at` order; `LAG` pairs each row with its predecessor. -/

/-- The `LAG(e) OVER (...)` column: each element paired with the previous
element of the partition (`none` for the first row). -/
def lagAux {α : Type} : Option α → List α → List (α × Option α)
  | _, [] => []
  | prev, x :: xs => (x, prev) :: lagAux (some x) xs

/-- Three-valued `extension_mm > prev_mm` collapsed to the `CASE`
outcome: true only when both sides are non-null and the comparison
holds. -/
def sqlGtB (cur prev : Option Rat) : Bool :=
  match cur, prev with
  | some c, some p => decide (p < c)
  | _, _ => false

/-- Three-valued `extension_mm < prev_mm` collapsed likewise. -/
def sqlLtB (cur prev : Option Rat) : Bool :=
  match cur, prev with
  | some c, some p => decide (c < p)
  | _, _ => false

/-- `SUM(CASE WHEN prev_mm IS NOT NULL AND extension_mm > prev_mm THEN 1
ELSE 0 END)` of `metric_extension_vs_retraction` on one partition. -/
def metricExtensions (xs : List (Option Rat)) : Nat :=
  ((lagAux none xs).filter (fun cp =>
    match cp.2 with
    | some pv => sqlGtB cp.1 pv
    | none => false)).length

/-- `SUM(CASE WHEN prev_mm IS NOT NULL AND extension_mm < prev_mm THEN 1
ELSE 0 END)` of `metric_extension_vs_retraction` on one partition. -/
def metricRetractions (xs : List (Option Rat)) : Nat :=
  ((lagAux none xs).filter (fun cp =>
    match cp.2 with
    | some pv => sqlLtB cp.1 pv
    | none => false)).length

/-- The `side` label of the `side_switches` query in run.ts: `CASE WHEN
extension_mm > 0 THEN 'right' WHEN extension_mm < 0 THEN 'left' ELSE
'center' END` (a null `extension_mm` falls into `ELSE`). -/
def sideCase (x : Option Rat) : String :=
  match x with
  | some v => if 0 < v then "right" else if v < 0 then "left" else "center"
  | none => "center"

/-- The `side_switches` aggregation of run.ts on one partition: lag the
side labels, keep rows with `prev_side IS NOT NULL AND side <> 'center'`,
then count `left→right` and `right→left` with `FILTER`. -/
def sideSwitches (xs : List (Option Rat)) : Nat × Nat :=
  let kept := (lagAux none (xs.map sideCase)).filter
    (fun cp => cp.2.isSome && cp.1 != "center")
  ((kept.filter (fun cp => cp.2 == some "left" && cp.1 == "right")).length,
   (kept.filter (fun cp => cp.2 == some "right" && cp.1 == "left")).length)

/-- Stable insertion into a time-ordered list (keeps arrival order among
equal timestamps). -/
def insertByTime (r : ExtRow) : List ExtRow → List ExtRow
  | [] => [r]
  | x :: xs => if x.observed_at < r.observed_at then x :: insertByTime r xs
               else r :: x :: xs

/-- One device's partition of the view in `ORDER BY observed_at` order
(a deterministic stable sort, as the spec's edge-case note requires). -/
def sortByTime (l : List ExtRow) : List ExtRow := l.foldr insertByTime []

/-- One device's `extension_mm` series, ordered by `observed_at`. -/
def deviceSeries (st : DBState) (d : Int) : List (Option Rat) :=
  (sortByTime ((v_platform_extension_mm st).filter
    (fun r => r.device_id == d))).map (·.extension_mm)

/-- One device's non-null `extension_mm` values in `observed_at` order. -/
def deviceValues (st : DBState) (d : Int) : List Rat :=
  (deviceSeries st d).filterMap id

/-- The `metric_extension_vs_retraction` view restricted to one device:
`(extensions, retractions)`. -/
def metric_extension_vs_retraction (st : DBState) (d : Int) : Nat × Nat :=
  (metricExtensions (deviceSeries st d), metricRetractions (deviceSeries st d))

/-- The run.ts `side_switches` query restricted to one device:
`(left_to_right, right_to_left)`. -/
def metric_side_switches (st : DBState) (d : Int) : Nat × Nat :=
  sideSwitches (deviceSeries st d)

/-- Postgres `numeric` rounding to an integer: round half away from
zero. -/
def pgRoundInt (q : Rat) : Int :=
  if q < 0 then -(Int.floor (-q + 1/2)) else Int.floor (q + 1/2)

/-- Cast to `numeric(10,s)`: round to `s` fractional digits. -/
def pgNumericScale (s : Nat) (q : Rat) : Rat :=
  (pgRoundInt (q * (10 : Rat) ^ s) : Rat) / (10 : Rat) ^ s

/-- First-occurrence deduplication, for `GROUP BY` keys. -/
def dedupKeys {α : Type} [BEq α] (l : List α) : List α :=
  l.foldl (fun acc x => if acc.any (fun y => y == x) then acc else acc ++ [x]) []

/-- The `metric_avg_extension_mm` view: `AVG(extension_mm)::numeric(10,3)
GROUP BY device_id` (SQL `AVG` ignores nulls). -/
def metric_avg_extension_mm (st : DBState) : List (Int × Rat) :=
  let rows := v_platform_extension_mm st
  (dedupKeys (rows.map (·.device_id))).map (fun d =>
    let vs := (rows.filter (fun r => r.device_id == d)).filterMap (·.extension_mm)
    (d, pgNumericScale 3 (vs.sum / vs.length)))

/-- Evaluation of a read-only `SELECT` on the unification view as a state
transformer: it returns the rows and the database state it ran against. -/
def queryUnifiedView (st : DBState) : List ExtRow × DBState :=
  (v_platform_extension_mm st, st)

/-! ### Specification-side counters (the claims' wording) -/

/-- Count of consecutive pairs `(previous, current)` of a sequence
satisfying a predicate; a one-element or empty sequence has no pairs. -/
def pairCount {α : Type} (p : α → α → Bool) : List α → Nat
  | a :: b :: rest => (if p a b then 1 else 0) + pairCount p (b :: rest)
  | _ => 0

/-- Sign classification of a reading, as the claim words it. -/
def sideOfRat (v : Rat) : String :=
  if 0 < v then "right" else if v < 0 then "left" else "center"

/-! ### The ingestion pipeline

The FastAPI ingest service (`ingest_service/routes/ingest.py`,
`services/ingest_services.py`) is referenced by the repository's
documentation but its Python sources are not among the embedded sources;
the whole pipeline below is modelled from the specification (sections 2,
4.1 to 4.4 and 7) and from the repository documents that describe the
service (raw write first, Pydantic-style structural validation, lazy
device creation, `ON CONFLICT DO NOTHING` fact insert, upserted error
rows). -/

/-- Modelled from the spec: a validated Telemetry Event
(section 4.1). -/
structure TelemetryEvent where
  device_id : Int
  event_type : String
  value : Rat
  record_time : Int
deriving DecidableEq

/-- Modelled from the spec: a validated Startup Event (section 4.1). -/
structure StartupEvent where
  serial : String
  provision_token : String
  record_time : Int
deriving DecidableEq

/-- Modelled from the spec: the closed tagged union the Schema Validator
returns (design note, section 9). -/
inductive ParsedEvent where
  | tele (e : TelemetryEvent) : ParsedEvent
  | startup (e : StartupEvent) : ParsedEvent
deriving DecidableEq

/-- Modelled from the spec: "timestamp parseable to an absolute instant".
Accepts the canonical `YYYY-MM-DDTHH:MM:SSZ` form and encodes the fields
injectively and monotonically into one integer; calendar-exact epoch
arithmetic is irrelevant to every claim. -/
def parseInstant (s : String) : Option Int :=
  match s.data with
  | [y1, y2, y3, y4, '-', m1, m2, '-', d1, d2, 'T',
     h1, h2, ':', n1, n2, ':', s1, s2, 'Z'] =>
    if ([y1, y2, y3, y4, m1, m2, d1, d2, h1, h2, n1, n2, s1, s2].all
          Char.isDigit) then
      let two := fun (a b : Char) => (a.toNat - 48) * 10 + (b.toNat - 48)
      let y := two y1 y2 * 100 + two y3 y4
      let mo := two m1 m2
      let d := two d1 d2
      let h := two h1 h2
      let mi := two n1 n2
      let se := two s1 s2
      if 1 ≤ mo ∧ mo ≤ 12 ∧ 1 ≤ d ∧ d ≤ 31 ∧ h ≤ 23 ∧ mi ≤ 59 ∧ se ≤ 59 then
        some (((((((y * 13 + mo) * 32 + d) * 24 + h) * 60 + mi) * 60 + se :
          Nat) : Int))
      else none
    else none
  | _ => none

/-- A JSON value acceptable as a telemetry `device_id` (`int|string` in
section 4.1; the Device Resolver needs a numeric id, so an integral
number or integer-formatted string). -/
def jsonDeviceId : Json → Option Int
  | .jnum q => if q.den = 1 then some q.num else none
  | .jstr s => pgIntCast s
  | _ => none

/-- Modelled from the spec: the Schema Validator (section 4.1).
Structural and type checks only: required fields present and typed,
timestamp parseable, `event_type` non-empty; dispatch on the
`event_type` discriminant. -/
def validatePayload (j : Json) : Except String ParsedEvent :=
  match j with
  | .jobj fields =>
    match lookupField fields "event_type" with
    | some (.jstr et) =>
      if et = "" then Except.error "validation: empty event_type"
      else if et = "device_startup" then
        match lookupField fields "serial",
              lookupField fields "provision_token",
              lookupField fields "timestamp" with
        | some (.jstr serial), some (.jstr tok), some (.jstr ts) =>
          match parseInstant ts with
          | some t => Except.ok (.startup ⟨serial, tok, t⟩)
          | none => Except.error "validation: unparseable timestamp"
        | _, _, _ => Except.error "validation: missing or mistyped startup field"
      else
        match lookupField fields "device_id",
              lookupField fields "value",
              lookupField fields "timestamp" with
        | some did, some (.jnum v), some (.jstr ts) =>
          match jsonDeviceId did, parseInstant ts with
          | some d, some t => Except.ok (.tele ⟨d, et, v, t⟩)
          | _, _ => Except.error "validation: bad device_id or timestamp"
        | _, _, _ => Except.error "validation: missing or mistyped telemetry field"
    | _ => Except.error "validation: missing or mistyped event_type"
  | _ => Except.error "validation: payload is not an object"

/-- Next value of a serial column, modelled as one more than the largest
issued id. -/
def nextNatId (ids : List Nat) : Nat := ids.foldl max 0 + 1

/-- Next device id for startup provisioning ("serial maps
deterministically to an id" is realized as the next free id). -/
def nextIntId (ids : List Int) : Int := ids.foldl max 0 + 1

/-- Next `raw_record.id` (BIGSERIAL). -/
def nextRawId (st : DBState) : Nat := nextNatId (st.raw_record.map (·.id))

/-- Modelled from the spec: the telemetry path of the Device Resolver
(section 4.2): return an existing Device, else lazily create a
placeholder whose id and name are the numeric id; a name collision is a
storage-constraint failure that quarantines the payload (repository
documentation: DB errors are upserted into `ingest_error`). -/
def resolveTeleDevice (st : DBState) (d : Int) :
    Except String DBState :=
  if st.device.any (fun dv => dv.id == d) then Except.ok st
  else if st.device.any (fun dv => dv.name == toString d) then
    Except.error "db: duplicate key value violates unique constraint uq_device_name"
  else
    Except.ok { st with device := st.device ++ [⟨d, toString d, none⟩] }

/-- Modelled from the spec: RecordType rows are "inserted on first
observation of a new type name" (section 3); returns the state and the
type's id. -/
def resolveType (st : DBState) (n : String) : DBState × Nat :=
  match st.record_type.find? (fun rt => rt.name == n) with
  | some rt => (st, rt.id)
  | none =>
    let tid := nextNatId (st.record_type.map (·.id))
    ({ st with record_type := st.record_type ++ [⟨tid, n, none⟩] }, tid)

/-- True when inserting `(rid, d, ty, t, v)` into `processed_record`
would hit `uq_processed_by_raw` or `uq_processed_event`. -/
def insertConflicts (st : DBState) (rid : Nat) (d : Int) (ty : Nat)
    (t : Int) (v : Rat) : Bool :=
  st.processed_record.any (fun q =>
    q.raw_data_id == rid ||
    (q.device_id == d && q.type == ty && q.record_time == t && q.value == v))

/-- Modelled from the spec: the Idempotent Writer (section 4.3) with the
documented `INSERT ... ON CONFLICT DO NOTHING` realization: a conflict
with either unique index suppresses the insert and reports `duplicate`
(`none`); otherwise the new fact id is returned. -/
def writeFact (st : DBState) (rid : Nat) (d : Int) (ty : Nat) (t : Int)
    (v : Rat) : DBState × Option Nat :=
  if insertConflicts st rid d ty t v then (st, none)
  else
    let fid := nextNatId (st.processed_record.map (·.id))
    ({ st with processed_record :=
        st.processed_record ++ [⟨fid, d, rid, t, ty, v⟩] }, some fid)

/-- Modelled from the spec: the Error Quarantine (section 4.4): upsert
keyed by `raw_data_id`, latest reason wins. -/
def quarantine (st : DBState) (rid : Nat) (reason : String) (now : Int) :
    DBState :=
  if st.ingest_error.any (fun e => e.raw_data_id == rid) then
    { st with ingest_error := st.ingest_error.map (fun e =>
        if e.raw_data_id == rid then { e with error := reason } else e) }
  else
    { st with ingest_error := st.ingest_error ++ [⟨rid, reason, now⟩] }

/-- Per-element outcome of the write path (section 6: `status`
"ok"/"invalid" with `processed_id` null for a duplicate or a startup). -/
inductive IngestStatus where
  | created (fid : Nat) : IngestStatus
  | duplicate : IngestStatus
  | invalid : IngestStatus
  | startup_ok : IngestStatus
deriving DecidableEq

/-- Unconditional append of the payload to the raw ledger (the write
that happens before any validation, section 6). -/
def addRaw (st : DBState) (j : Json) (now : Int) : DBState :=
  { st with raw_record := st.raw_record ++ [⟨nextRawId st, j, now⟩] }

/-- Modelled from the spec: the whole write path for one payload
(section 2 data flow): append the RawRecord first, then validate, then
resolve the device and insert the fact, quarantining any input-level
failure.  `tokenOk serial token` abstracts the HMAC verification of the
provisioning token (section 4.2); `now` is the arrival clock. -/
def processPayload (tokenOk : String → String → Bool) (st : DBState)
    (j : Json) (now : Int) : DBState × IngestStatus :=
  let rid := nextRawId st
  let st1 := addRaw st j now
  match validatePayload j with
  | Except.error msg => (quarantine st1 rid msg now, .invalid)
  | Except.ok (.startup e) =>
    if tokenOk e.serial e.provision_token then
      if st1.device.any (fun dv => dv.name == e.serial) then (st1, .startup_ok)
      else
        let did := nextIntId (st1.device.map (·.id))
        ({ st1 with device := st1.device ++ [⟨did, e.serial, some now⟩] },
          .startup_ok)
    else (quarantine st1 rid "auth: invalid_provision_token" now, .invalid)
  | Except.ok (.tele e) =>
    match resolveTeleDevice st1 e.device_id with
    | Except.error msg => (quarantine st1 rid msg now, .invalid)
    | Except.ok st2 =>
      let p := resolveType st2 e.event_type
      match writeFact p.1 rid e.device_id p.2 e.record_time e.value with
      | (st4, some fid) => (st4, .created fid)
      | (st4, none) => (st4, .duplicate)

/-- Number of processed rows referencing a raw id. -/
def prCount (st : DBState) (rid : Nat) : Nat := (prMatches st rid).length

/-- Number of error rows referencing a raw id. -/
def ieCount (st : DBState) (rid : Nat) : Nat := (ieMatches st rid).length

/-! ### Concrete states and payloads used by scenarios and witnesses -/

/-- The empty database after `001_tables.sql` ran: the four seeded
`record_type` rows (ids in insertion order of the seed `INSERT`) and
nothing else. -/
def seededState : DBState :=
  { device := []
    record_type :=
      [⟨1, "platform_extension_ticks", none⟩,
       ⟨2, "platform_extension_mm", none⟩,
       ⟨3, "battery_charge", none⟩,
       ⟨4, "platform_height_mm", none⟩]
    raw_record := []
    ingest_error := []
    processed_record := [] }

/-- Scenario A's payload: `device_id 42, event_type
platform_extension_ticks, value 100, timestamp 2024-01-01T00:00:00Z`. -/
def scenarioAPayload : Json :=
  .jobj [("device_id", .jnum 42),
         ("event_type", .jstr "platform_extension_ticks"),
         ("value", .jnum 100),
         ("timestamp", .jstr "2024-01-01T00:00:00Z")]

/-- A small populated database: one device, the two extension types, a
millimeter fact (value 5) and a ticks fact (value 100), plus one
quarantined raw payload whose `device_id` is the integer-formatted string
"55". -/
def wSt : DBState :=
  { device := [⟨7, "7", none⟩]
    record_type :=
      [⟨1, "platform_extension_ticks", none⟩,
       ⟨2, "platform_extension_mm", none⟩]
    raw_record :=
      [⟨1, .jobj [("device_id", .jnum 7)], 0⟩,
       ⟨2, .jobj [("device_id", .jnum 7)], 1⟩,
       ⟨3, .jobj [("device_id", .jstr "55")], 2⟩]
    ingest_error :=
      [⟨3, "validation: missing or mistyped telemetry field", 2⟩]
    processed_record :=
      [⟨1, 7, 1, 0, 2, 5⟩, ⟨2, 7, 2, 5, 1, 100⟩] }

/-- A database holding one quarantined raw payload whose `device_id`
field is the non-integer string "abc" (and no processed row for it). -/
def badState : DBState :=
  { device := []
    record_type := []
    raw_record := [⟨1, .jobj [("device_id", .jstr "abc")], 0⟩]
    ingest_error := [⟨1, "validation: missing or mistyped telemetry field", 0⟩]
    processed_record := [] }

/-- The state `wSt` with its raw ledger, quarantine and device dimension
emptied; it agrees with `wSt` on `processed_record` and `record_type`. -/
def w8b : DBState :=
  { device := []
    record_type := wSt.record_type
    raw_record := []
    ingest_error := []
    processed_record := wSt.processed_record }

/-- First submission of Scenario A's payload against the seeded
database. -/
def dupRun1 : DBState × IngestStatus :=
  processPayload (fun _ _ => true) seededState scenarioAPayload 0

/-- Second submission of the identical payload against the state the
first one left. -/
def dupRun2 : DBState × IngestStatus :=
  processPayload (fun _ _ => true) dupRun1.1 scenarioAPayload 1

/-! ## Helper lemmas -/

theorem extensionCase_mm (v : Rat) :
    extensionCase "platform_extension_mm" v = some v := by
  simp [extensionCase]

theorem extensionCase_ticks (v : Rat) :
    extensionCase "platform_extension_ticks" v = some (v / 20) := by
  simp [extensionCase]

theorem mk_mem_view (st : DBState) (pr : ProcessedRecord) (rt : RecordType)
    (hpr : pr ∈ st.processed_record) (hrt : rt ∈ st.record_type)
    (hid : rt.id = pr.type)
    (hname : rt.name = "platform_extension_mm" ∨
      rt.name = "platform_extension_ticks") :
    (⟨pr.device_id, pr.record_time, extensionCase rt.name pr.value⟩ : ExtRow)
      ∈ v_platform_extension_mm st := by
  unfold v_platform_extension_mm
  refine List.mem_flatMap.mpr ⟨pr, hpr, ?_⟩
  refine List.mem_map.mpr ⟨rt, List.mem_filter.mpr ⟨hrt, ?_⟩, rfl⟩
  rcases hname with h | h <;> simp [hid, h]

theorem view_mem_elim (st : DBState) (row : ExtRow)
    (h : row ∈ v_platform_extension_mm st) :
    ∃ pr ∈ st.processed_record, ∃ rt ∈ st.record_type,
      rt.id = pr.type ∧
      (rt.name = "platform_extension_mm" ∨
        rt.name = "platform_extension_ticks") ∧
      row = ⟨pr.device_id, pr.record_time, extensionCase rt.name pr.value⟩ := by
  unfold v_platform_extension_mm at h
  rcases List.mem_flatMap.mp h with ⟨pr, hpr, hrow⟩
  rcases List.mem_map.mp hrow with ⟨rt, hrt, heq⟩
  rcases List.mem_filter.mp hrt with ⟨hrtm, hcond⟩
  simp only [Bool.and_eq_true, Bool.or_eq_true, beq_iff_eq] at hcond
  exact ⟨pr, hpr, rt, hrtm, hcond.1.symm ▸ rfl, hcond.2, heq.symm⟩

theorem view_extension_isSome (st : DBState) (row : ExtRow)
    (h : row ∈ v_platform_extension_mm st) : row.extension_mm.isSome := by
  rcases view_mem_elim st row h with ⟨pr, _, rt, _, _, hname, hrow⟩
  subst hrow
  rcases hname with h | h <;> simp [h, extensionCase_mm, extensionCase_ticks]

/-! ## Claims -/

/-- C3.  Unification View conversion: a processed row of the millimeter
type contributes a view row whose `extension_mm` is the stored value; a
row of the legacy ticks type contributes `value / 20.0`; every view row
comes from a processed row of one of those two types (any other type
produces no row).  Scenario A: ingesting the ticks payload with value 100
stores the fact unconverted (`value = 100`, ticks type id 1) and the view
reports `extension_mm = 5.0`. -/
theorem C3_unification_view_conversion :
    (∀ st pr rt, pr ∈ st.processed_record → rt ∈ st.record_type →
      rt.id = pr.type → rt.name = "platform_extension_mm" →
      (⟨pr.device_id, pr.record_time, some pr.value⟩ : ExtRow)
        ∈ v_platform_extension_mm st) ∧
    (∀ st pr rt, pr ∈ st.processed_record → rt ∈ st.record_type →
      rt.id = pr.type → rt.name = "platform_extension_ticks" →
      (⟨pr.device_id, pr.record_time, some (pr.value / 20)⟩ : ExtRow)
        ∈ v_platform_extension_mm st) ∧
    (∀ st row, row ∈ v_platform_extension_mm st →
      ∃ pr ∈ st.processed_record, ∃ rt ∈ st.record_type,
        rt.id = pr.type ∧
        (rt.name = "platform_extension_mm" ∨
          rt.name = "platform_extension_ticks") ∧
        row.device_id = pr.device_id ∧ row.observed_at = pr.record_time) ∧
    (DBState.processed_record
        (processPayload (fun _ _ => true) seededState scenarioAPayload 0).1
        = [⟨1, 42, 1, 72750268800, 1, 100⟩] ∧
     v_platform_extension_mm
        (processPayload (fun _ _ => true) seededState scenarioAPayload 0).1
        = [⟨42, 72750268800, some 5⟩]) := by
  refine ⟨?_, ?_, ?_, ?_, ?_⟩
  · intro st pr rt hpr hrt hid hname
    have h := mk_mem_view st pr rt hpr hrt hid (Or.inl hname)
    rwa [hname, extensionCase_mm] at h
  · intro st pr rt hpr hrt hid hname
    have h := mk_mem_view st pr rt hpr hrt hid (Or.inr hname)
    rwa [hname, extensionCase_ticks] at h
  · intro st row h
    rcases view_mem_elim st row h with ⟨pr, hpr, rt, hrt, hid, hname, hrow⟩
    exact ⟨pr, hpr, rt, hrt, hid, hname, by rw [hrow], by rw [hrow]⟩
  · decide
  · have h : v_platform_extension_mm
        (processPayload (fun _ _ => true) seededState scenarioAPayload 0).1
        = [⟨42, 72750268800, some ((100 : Rat) / 20)⟩] := by rfl
    rw [h, show (100 : Rat) / 20 = 5 by norm_num]

/-- C4.  Unit equivalence: the view's conversion maps a ticks value `T`
and a millimeter value `T / 20.0` to the same `extension_mm`; hence two
stored facts so related (at any two timestamps) yield view rows with
numerically equal `extension_mm`, namely `some (T / 20)` for both. -/
theorem C4_unit_equivalence :
    (∀ T : Rat, extensionCase "platform_extension_ticks" T
        = extensionCase "platform_extension_mm" (T / 20)) ∧
    (∀ st (T : Rat) prT rtT prM rtM,
      prT ∈ st.processed_record → rtT ∈ st.record_type →
      rtT.id = prT.type → rtT.name = "platform_extension_ticks" →
      prT.value = T →
      prM ∈ st.processed_record → rtM ∈ st.record_type →
      rtM.id = prM.type → rtM.name = "platform_extension_mm" →
      prM.value = T / 20 →
      (⟨prT.device_id, prT.record_time, some (T / 20)⟩ : ExtRow)
          ∈ v_platform_extension_mm st ∧
      (⟨prM.device_id, prM.record_time, some (T / 20)⟩ : ExtRow)
          ∈ v_platform_extension_mm st) := by
  constructor
  · intro T
    rw [extensionCase_ticks, extensionCase_mm]
  · intro st T prT rtT prM rtM hprT hrtT hidT hnameT hvT hprM hrtM hidM
      hnameM hvM
    constructor
    · have h := mk_mem_view st prT rtT hprT hrtT hidT (Or.inr hnameT)
      rwa [hnameT, extensionCase_ticks, hvT] at h
    · have h := mk_mem_view st prM rtM hprM hrtM hidM (Or.inl hnameM)
      rwa [hnameM, extensionCase_mm, hvM] at h

/-! ## Window-function counting lemmas -/

theorem lag_filter_cons {α : Type} (pb : α → Option α → Bool) :
    ∀ (xs : List α) (p : α),
      ((lagAux (some p) xs).filter (fun cp => pb cp.1 cp.2)).length
        = pairCount (fun a b => pb b (some a)) (p :: xs) := by
  intro xs
  induction xs with
  | nil => intro p; rfl
  | cons x rest ih =>
    intro p
    show (((x, some p) :: lagAux (some x) rest).filter
        (fun cp => pb cp.1 cp.2)).length
      = pairCount (fun a b => pb b (some a)) (p :: x :: rest)
    rw [List.filter_cons]
    by_cases h : pb x (some p)
    · simp only [h, if_pos, List.length_cons, ih x]
      show (pairCount (fun a b => pb b (some a)) (x :: rest)) + 1 = _
      simp [pairCount, h, Nat.add_comm]
    · simp only [h]
      show (((lagAux (some x) rest).filter (fun cp => pb cp.1 cp.2))).length = _
      rw [ih x]
      simp [pairCount, h]

theorem lag_filter_length {α : Type} (pb : α → Option α → Bool)
    (hnone : ∀ c, pb c none = false) (xs : List α) :
    ((lagAux none xs).filter (fun cp => pb cp.1 cp.2)).length
      = pairCount (fun a b => pb b (some a)) xs := by
  cases xs with
  | nil => rfl
  | cons x rest =>
    show (((x, none) :: lagAux (some x) rest).filter
        (fun cp => pb cp.1 cp.2)).length = _
    rw [List.filter_cons]
    simp only [hnone x]
    exact lag_filter_cons pb rest x

theorem pairCount_map {α β : Type} (f : α → β) (p : β → β → Bool) :
    ∀ xs : List α,
      pairCount p (xs.map f) = pairCount (fun a b => p (f a) (f b)) xs := by
  intro xs
  induction xs with
  | nil => rfl
  | cons x rest ih =>
    cases rest with
    | nil => rfl
    | cons y rest' =>
      show (if p (f x) (f y) then 1 else 0) + pairCount p ((y :: rest').map f)
        = (if p (f x) (f y) then 1 else 0) + _
      rw [ih]

theorem pairCount_congr {α : Type} (p q : α → α → Bool)
    (h : ∀ a b, p a b = q a b) :
    ∀ xs : List α, pairCount p xs = pairCount q xs := by
  intro xs
  induction xs with
  | nil => rfl
  | cons x rest ih =>
    cases rest with
    | nil => rfl
    | cons y rest' =>
      show (if p x y then 1 else 0) + pairCount p (y :: rest')
        = (if q x y then 1 else 0) + pairCount q (y :: rest')
      rw [h x y, ih]

theorem map_some_filterMap {α : Type} :
    ∀ xs : List (Option α), (∀ x ∈ xs, x.isSome) →
      (xs.filterMap id).map some = xs := by
  intro xs
  induction xs with
  | nil => intro _; rfl
  | cons x rest ih =>
    intro h
    have hx : x.isSome := h x (List.mem_cons_self x rest)
    rcases Option.isSome_iff_exists.mp hx with ⟨a, rfl⟩
    have : (rest.filterMap id).map some = rest :=
      ih (fun y hy => h y (List.mem_cons_of_mem _ hy))
    simp [List.filterMap_cons, this]

theorem mem_insertByTime (r a : ExtRow) :
    ∀ l : List ExtRow, a ∈ insertByTime r l → a = r ∨ a ∈ l := by
  intro l
  induction l with
  | nil => intro h; exact Or.inl (List.mem_singleton.mp h)
  | cons x rest ih =>
    intro h
    unfold insertByTime at h
    by_cases hc : x.observed_at < r.observed_at
    · rw [if_pos hc] at h
      rcases List.mem_cons.mp h with h | h
      · exact Or.inr (h ▸ List.mem_cons_self x rest)
      · rcases ih h with h | h
        · exact Or.inl h
        · exact Or.inr (List.mem_cons_of_mem _ h)
    · rw [if_neg hc] at h
      rcases List.mem_cons.mp h with h | h
      · exact Or.inl h
      · exact Or.inr h

theorem mem_sortByTime (a : ExtRow) :
    ∀ l : List ExtRow, a ∈ sortByTime l → a ∈ l := by
  intro l
  induction l with
  | nil => intro h; exact absurd h (List.not_mem_nil a)
  | cons x rest ih =>
    intro h
    have h' : a ∈ insertByTime x (sortByTime rest) := h
    rcases mem_insertByTime x a (sortByTime rest) h' with h'' | h''
    · exact h'' ▸ List.mem_cons_self x rest
    · exact List.mem_cons_of_mem _ (ih h'')

theorem deviceSeries_isSome (st : DBState) (d : Int) :
    ∀ x ∈ deviceSeries st d, x.isSome := by
  intro x hx
  unfold deviceSeries at hx
  rcases List.mem_map.mp hx with ⟨row, hrow, hx⟩
  have h1 := mem_sortByTime row _ hrow
  have h2 := (List.mem_filter.mp h1).1
  exact hx ▸ view_extension_isSome st row h2

theorem deviceSeries_eq_map_some (st : DBState) (d : Int) :
    (deviceValues st d).map some = deviceSeries st d :=
  map_some_filterMap (deviceSeries st d) (deviceSeries_isSome st d)

theorem sideOfRat_cases (v : Rat) :
    sideOfRat v = "right" ∨ sideOfRat v = "left" ∨ sideOfRat v = "center" := by
  unfold sideOfRat
  by_cases h1 : 0 < v
  · exact Or.inl (if_pos h1)
  · rw [if_neg h1]
    by_cases h2 : v < 0
    · exact Or.inr (Or.inl (if_pos h2))
    · exact Or.inr (Or.inr (if_neg h2))

/-- C9.  Every row the unification view produces has a non-null
`extension_mm`: the `WHERE` clause admits exactly the two type names the
`CASE` handles, so the null branch of the `CASE` is unreachable. -/
theorem C9_view_extension_never_null (st : DBState) (row : ExtRow)
    (h : row ∈ v_platform_extension_mm st) : row.extension_mm.isSome :=
  view_extension_isSome st row h

/-- C5.  Extension-vs-retraction metric: per device, with the unified
readings ordered by `observed_at`, the reported `extensions` equals the
number of consecutive pairs whose current value strictly exceeds the
previous one and `retractions` the number of pairs where it is strictly
less; equal consecutive values and the device's first reading (no
predecessor) contribute to neither count. -/
theorem C5_extension_retraction_counts (st : DBState) (d : Int) :
    metric_extension_vs_retraction st d
      = (pairCount (fun a b => decide (a < b)) (deviceValues st d),
         pairCount (fun a b => decide (b < a)) (deviceValues st d)) := by
  have hExt : ∀ vals : List Rat,
      metricExtensions (vals.map some)
        = pairCount (fun a b => decide (a < b)) vals := by
    intro vals
    have h0 : metricExtensions (vals.map some)
        = ((lagAux none (vals.map some)).filter
            (fun cp => (fun (c : Option Rat) (p? : Option (Option Rat)) =>
              match p? with
              | some pv => sqlGtB c pv
              | none => false) cp.1 cp.2)).length := rfl
    rw [h0, lag_filter_length
        (fun (c : Option Rat) (p? : Option (Option Rat)) =>
          match p? with
          | some pv => sqlGtB c pv
          | none => false)
        (fun _ => rfl) (vals.map some),
      pairCount_map some _ vals]
    exact pairCount_congr _ _ (fun _ _ => rfl) vals
  have hRet : ∀ vals : List Rat,
      metricRetractions (vals.map some)
        = pairCount (fun a b => decide (b < a)) vals := by
    intro vals
    have h0 : metricRetractions (vals.map some)
        = ((lagAux none (vals.map some)).filter
            (fun cp => (fun (c : Option Rat) (p? : Option (Option Rat)) =>
              match p? with
              | some pv => sqlLtB c pv
              | none => false) cp.1 cp.2)).length := rfl
    rw [h0, lag_filter_length
        (fun (c : Option Rat) (p? : Option (Option Rat)) =>
          match p? with
          | some pv => sqlLtB c pv
          | none => false)
        (fun _ => rfl) (vals.map some),
      pairCount_map some _ vals]
    exact pairCount_congr _ _ (fun _ _ => rfl) vals
  unfold metric_extension_vs_retraction
  rw [← deviceSeries_eq_map_some st d, hExt, hRet]

/-- C6.  Side-switch counts: per device, labelling each reading `left`
when `extension_mm < 0`, `right` when `> 0` and `center` when zero, the
query's `left_to_right` counts exactly the readings labelled `right`
whose immediately preceding reading is labelled `left` (and symmetrically
for `right_to_left`); pairs involving a `center` label and the first
reading of a device are counted by neither. -/
theorem C6_side_switch_counts (st : DBState) (d : Int) :
    metric_side_switches st d
      = (pairCount (fun a b =>
            sideOfRat a == "left" && sideOfRat b == "right")
          (deviceValues st d),
         pairCount (fun a b =>
            sideOfRat a == "right" && sideOfRat b == "left")
          (deviceValues st d)) := by
  have hsc : ∀ v : Rat, sideCase (some v) = sideOfRat v := fun _ => rfl
  have hone : ∀ (vals : List Rat) (tgt : String × String),
      (((lagAux none ((vals.map some).map sideCase)).filter
          (fun cp => cp.2.isSome && cp.1 != "center")).filter
        (fun cp => cp.2 == some tgt.1 && cp.1 == tgt.2)).length
      = pairCount (fun a b =>
          (some (sideOfRat a) == some tgt.1 && sideOfRat b == tgt.2) &&
          ((some (sideOfRat a)).isSome && sideOfRat b != "center")) vals := by
    intro vals tgt
    rw [List.filter_filter]
    rw [lag_filter_length (fun (c : String) (p? : Option String) =>
      (p? == some tgt.1 && c == tgt.2) && (p?.isSome && c != "center"))
      (fun c => rfl) ((vals.map some).map sideCase)]
    rw [List.map_map,
      pairCount_map (sideCase ∘ some) _ vals]
    exact pairCount_congr _ _ (fun a b => rfl) vals
  have hsimp : ∀ (vals : List Rat) (s1 s2 : String),
      (s2 = "left" ∧ s1 = "right") ∨ (s2 = "right" ∧ s1 = "left") →
      pairCount (fun a b =>
          (some (sideOfRat a) == some s2 && sideOfRat b == s1) &&
          ((some (sideOfRat a)).isSome && sideOfRat b != "center")) vals
        = pairCount (fun a b =>
            sideOfRat a == s2 && sideOfRat b == s1) vals := by
    intro vals s1 s2 hcase
    refine pairCount_congr _ _ (fun a b => ?_) vals
    rcases hcase with ⟨h2, h1⟩ | ⟨h2, h1⟩ <;> subst h1 <;> subst h2 <;>
      rcases sideOfRat_cases a with ha | ha | ha <;>
      rcases sideOfRat_cases b with hb | hb | hb <;>
      rw [ha, hb] <;> decide
  show sideSwitches (deviceSeries st d) = _
  rw [← deviceSeries_eq_map_some st d]
  unfold sideSwitches
  refine Prod.ext ?_ ?_
  · show (((lagAux none (((deviceValues st d).map some).map sideCase)).filter
        (fun cp => cp.2.isSome && cp.1 != "center")).filter
        (fun cp => cp.2 == some "left" && cp.1 == "right")).length = _
    rw [hone (deviceValues st d) ("left", "right")]
    exact hsimp (deviceValues st d) "right" "left" (Or.inl ⟨rfl, rfl⟩)
  · show (((lagAux none (((deviceValues st d).map some).map sideCase)).filter
        (fun cp => cp.2.isSome && cp.1 != "center")).filter
        (fun cp => cp.2 == some "right" && cp.1 == "left")).length = _
    rw [hone (deviceValues st d) ("right", "left")]
    exact hsimp (deviceValues st d) "left" "right" (Or.inr ⟨rfl, rfl⟩)

/-- C8.  Read-time conversion never mutates storage: the unification
view and every metric derived from it are functions of the
`processed_record` and `record_type` tables alone, and evaluating the
view returns the database state unchanged — in particular every stored
fact row and its `value` field. -/
theorem C8_read_time_conversion_is_pure (st st' : DBState)
    (hp : st.processed_record = st'.processed_record)
    (ht : st.record_type = st'.record_type) :
    v_platform_extension_mm st = v_platform_extension_mm st' ∧
    metric_avg_extension_mm st = metric_avg_extension_mm st' ∧
    (∀ d, metric_extension_vs_retraction st d
        = metric_extension_vs_retraction st' d) ∧
    (∀ d, metric_side_switches st d = metric_side_switches st' d) ∧
    (queryUnifiedView st).2 = st ∧
    (queryUnifiedView st).2.processed_record = st.processed_record := by
  have hview : v_platform_extension_mm st = v_platform_extension_mm st' := by
    show st.processed_record.flatMap _ = st'.processed_record.flatMap _
    rw [hp, ht]
  refine ⟨hview, ?_, ?_, ?_, rfl, rfl⟩
  · unfold metric_avg_extension_mm
    rw [hview]
  · intro d
    unfold metric_extension_vs_retraction deviceSeries
    rw [hview]
  · intro d
    unfold metric_side_switches deviceSeries
    rw [hview]

/-- C8 witness: `wSt` and `w8b` differ in their raw ledgers, quarantine
tables and device dimensions but share facts and types, and the view is
identical on both. -/
theorem C8_witness :
    v_platform_extension_mm wSt = v_platform_extension_mm w8b :=
  (C8_read_time_conversion_is_pure wSt w8b rfl rfl).1

/-- C3 witness: in the populated database `wSt`, the millimeter fact of
device 7 at time 0 with value 5 appears in the view as `extension_mm =
5`. -/
theorem C3_witness :
    (⟨7, 0, some (5 : Rat)⟩ : ExtRow) ∈ v_platform_extension_mm wSt :=
  C3_unification_view_conversion.1 wSt ⟨1, 7, 1, 0, 2, 5⟩
    ⟨2, "platform_extension_mm", none⟩ (by decide) (by decide) rfl rfl

/-- C4 witness: in `wSt`, the ticks fact (value 100) and the millimeter
fact (value 5 = 100 / 20) of device 7 both appear in the view with the
same `extension_mm`. -/
theorem C4_witness :
    (⟨7, 5, some ((100 : Rat) / 20)⟩ : ExtRow) ∈ v_platform_extension_mm wSt ∧
    (⟨7, 0, some ((100 : Rat) / 20)⟩ : ExtRow) ∈ v_platform_extension_mm wSt :=
  C4_unit_equivalence.2 wSt 100 ⟨2, 7, 2, 5, 1, 100⟩
    ⟨1, "platform_extension_ticks", none⟩ ⟨1, 7, 1, 0, 2, 5⟩
    ⟨2, "platform_extension_mm", none⟩
    (by decide) (by decide) rfl rfl rfl
    (by decide) (by decide) rfl rfl (by norm_num)

/-- C9 witness: the view row of `wSt`'s millimeter fact has a non-null
`extension_mm`. -/
theorem C9_witness :
    (Option.isSome ((⟨7, 0, some (5 : Rat)⟩ : ExtRow).extension_mm)) = true :=
  C9_view_extension_never_null wSt ⟨7, 0, some (5 : Rat)⟩
    (by rw [show v_platform_extension_mm wSt
        = [⟨7, 0, some (5 : Rat)⟩, ⟨7, 5, some ((100 : Rat) / 20)⟩]
        from rfl]
        exact List.mem_cons_self _ _)

/-! ## Lemmas about the diagnostic join view -/

theorem filter_key_le_one {α β : Type} [DecidableEq β] (f : α → β) :
    ∀ l : List α, (l.map f).Nodup →
      ∀ k, (l.filter (fun a => f a == k)).length ≤ 1 := by
  intro l
  induction l with
  | nil => intro _ k; exact Nat.le_of_lt Nat.zero_lt_one
  | cons x xs ih =>
    intro hnd k
    rw [List.map_cons, List.nodup_cons] at hnd
    rw [List.filter_cons]
    by_cases hc : f x = k
    · have hnil : xs.filter (fun a => f a == k) = [] := by
        rw [List.filter_eq_nil_iff]
        intro a ha hak
        exact hnd.1 (by
          have : f a = f x := (beq_iff_eq.mp hak).trans hc.symm
          exact this ▸ List.mem_map_of_mem f ha)
      simp [hc, hnil]
    · have : (f x == k) = false := beq_eq_false_iff_ne.mpr hc
      simp only [this, Bool.false_eq_true, if_false]
      exact ih hnd.2 k

theorem leftJoin_head {α β : Type} (ms : α → List β)
    (hle : ∀ a, (ms a).length ≤ 1) :
    ∀ xs : List α, leftJoin xs ms = xs.map (fun a => (a, (ms a).head?)) := by
  intro xs
  induction xs with
  | nil => rfl
  | cons x xs ih =>
    have hflat : leftJoin (x :: xs) ms
        = (match ms x with
           | [] => [(x, none)]
           | l => l.map (fun b => (x, some b))) ++ leftJoin xs ms := by
      unfold leftJoin
      rw [List.flatMap_cons]
    rw [hflat, ih]
    cases hm : ms x with
    | nil => rw [List.map_cons, hm]; rfl
    | cons b rest =>
      cases rest with
      | nil => rw [List.map_cons, hm]; rfl
      | cons c rest' =>
        have := hle x
        rw [hm] at this
        simp at this

theorem mapExcept_ok {α β : Type} (f : α → Except String β) :
    ∀ (l : List α) (ys : List β), mapExcept f l = Except.ok ys →
      List.Forall₂ (fun a b => f a = Except.ok b) l ys := by
  intro l
  induction l with
  | nil =>
    intro ys h
    unfold mapExcept at h
    injection h with h
    subst h
    exact List.Forall₂.nil
  | cons x xs ih =>
    intro ys h
    unfold mapExcept at h
    cases hf : f x with
    | error e => rw [hf] at h; cases h
    | ok y =>
      rw [hf] at h
      cases hm : mapExcept f xs with
      | error e => rw [hm] at h; cases h
      | ok ys' =>
        rw [hm] at h
        injection h with h
        subst h
        exact List.Forall₂.cons hf (ih ys' hm)

theorem forall₂_mem_right {α β : Type} {R : α → β → Prop} :
    ∀ {l1 : List α} {l2 : List β}, List.Forall₂ R l1 l2 →
      ∀ b ∈ l2, ∃ a ∈ l1, R a b := by
  intro l1 l2 h
  induction h with
  | nil => intro b hb; exact absurd hb (List.not_mem_nil b)
  | @cons a b l1' l2' hab _ ih =>
    intro c hc
    rcases List.mem_cons.mp hc with hc | hc
    · exact ⟨a, List.mem_cons_self a l1', hc ▸ hab⟩
    · rcases ih c hc with ⟨a', ha', hR⟩
      exact ⟨a', List.mem_cons_of_mem a ha', hR⟩

theorem forall₂_mem_left {α β : Type} {R : α → β → Prop} :
    ∀ {l1 : List α} {l2 : List β}, List.Forall₂ R l1 l2 →
      ∀ a ∈ l1, ∃ b ∈ l2, R a b := by
  intro l1 l2 h
  induction h with
  | nil => intro a ha; exact absurd ha (List.not_mem_nil a)
  | @cons a b l1' l2' hab _ ih =>
    intro c hc
    rcases List.mem_cons.mp hc with hc | hc
    · exact ⟨b, List.mem_cons_self b l2', hc ▸ hab⟩
    · rcases ih c hc with ⟨b', hb', hR⟩
      exact ⟨b', List.mem_cons_of_mem b hb', hR⟩

theorem forall₂_map_eq {α β γ : Type} {R : α → β → Prop} (fa : α → γ)
    (fb : β → γ) (hf : ∀ a b, R a b → fb b = fa a) :
    ∀ {l1 : List α} {l2 : List β}, List.Forall₂ R l1 l2 →
      l2.map fb = l1.map fa := by
  intro l1 l2 h
  induction h with
  | nil => rfl
  | @cons a b l1' l2' hab _ ih =>
    rw [List.map_cons, List.map_cons, ih, hf a b hab]

theorem ingestParseProj_ok
    (t : (RawRecord × Option ProcessedRecord) × Option IngestError)
    (row : IngestParseRow) (h : ingestParseProj t = Except.ok row) :
    row.raw_data_id = t.1.1.id ∧ row.parse_ok = t.1.2.isSome ∧
    row.error = t.2.map (·.error) ∧
    (t.1.2 = none →
      castTextInt (jsonbFieldAsText t.1.1.raw_message "device_id")
        = Except.ok row.device_id) := by
  rcases t with ⟨⟨rr, pr?⟩, ie?⟩
  cases pr? with
  | some pr =>
    unfold ingestParseProj at h
    injection h with h
    subst h
    exact ⟨rfl, rfl, rfl, fun hc => by cases hc⟩
  | none =>
    unfold ingestParseProj at h
    cases hc : castTextInt (jsonbFieldAsText rr.raw_message "device_id") with
    | error e => rw [hc] at h; cases h
    | ok d =>
      rw [hc] at h
      injection h with h
      subst h
      exact ⟨rfl, rfl, rfl, fun _ => rfl⟩

theorem ingest_parse_forall₂ (st : DBState) (rows : List IngestParseRow)
    (hprN : (st.processed_record.map (·.raw_data_id)).Nodup)
    (hieN : (st.ingest_error.map (·.raw_data_id)).Nodup)
    (h : ingest_parse st = Except.ok rows) :
    List.Forall₂ (fun rr row =>
      ingestParseProj ((rr, (prMatches st rr.id).head?),
        (ieMatches st rr.id).head?) = Except.ok row)
      st.raw_record rows := by
  unfold ingest_parse at h
  have hpr_le : ∀ rr : RawRecord, (prMatches st rr.id).length ≤ 1 := by
    intro rr
    show (st.processed_record.filter
      (fun pr => pr.raw_data_id == rr.id)).length ≤ 1
    exact filter_key_le_one (fun pr : ProcessedRecord => pr.raw_data_id)
      st.processed_record hprN rr.id
  have hie_le : ∀ p : RawRecord × Option ProcessedRecord,
      (ieMatches st p.1.id).length ≤ 1 := by
    intro p
    show (st.ingest_error.filter
      (fun ie => ie.raw_data_id == p.1.id)).length ≤ 1
    exact filter_key_le_one (fun e : IngestError => e.raw_data_id)
      st.ingest_error hieN p.1.id
  rw [leftJoin_head (fun rr => prMatches st rr.id) hpr_le st.raw_record,
    leftJoin_head (fun p : RawRecord × Option ProcessedRecord =>
      ieMatches st p.1.id) hie_le,
    List.map_map] at h
  have hF := mapExcept_ok ingestParseProj _ rows h
  exact List.forall₂_map_left_iff.mp hF

/-- C7.  Diagnostic join view: when the view evaluates, it produces
exactly one row per RawRecord (in ledger order, with matching ids);
`parse_ok` is true exactly when a ProcessedRecord referencing that raw
record exists; `error` carries the quarantined reason when an IngestError
for the raw record exists and is null otherwise. -/
theorem C7_diagnostic_join_view (st : DBState) (rows : List IngestParseRow)
    (hwf : wf st) (h : ingest_parse st = Except.ok rows) :
    rows.map (·.raw_data_id) = st.raw_record.map (·.id) ∧
    (∀ row ∈ rows,
      (row.parse_ok = true ↔
        ∃ pr ∈ st.processed_record, pr.raw_data_id = row.raw_data_id) ∧
      ((∃ e ∈ st.ingest_error, e.raw_data_id = row.raw_data_id ∧
          row.error = some e.error) ∨
       (row.error = none ∧
        ∀ e ∈ st.ingest_error, e.raw_data_id ≠ row.raw_data_id))) := by
  obtain ⟨_, _, _, _, _, _, hprN, _, hieN, _⟩ := hwf
  have hF := ingest_parse_forall₂ st rows hprN hieN h
  constructor
  · exact forall₂_map_eq (·.id) (·.raw_data_id)
      (fun rr row hR => (ingestParseProj_ok _ row hR).1) hF
  · intro row hrow
    rcases forall₂_mem_right hF row hrow with ⟨rr, hrr, hR⟩
    obtain ⟨hid, hok, herr, _⟩ := ingestParseProj_ok _ row hR
    constructor
    · rw [hok, hid]
      cases hm : prMatches st rr.id with
      | nil =>
        simp only [hm, List.head?_nil, Option.isSome_none, Bool.false_eq_true,
          false_iff]
        rintro ⟨pr, hpr, hpreq⟩
        have : pr ∈ prMatches st rr.id :=
          List.mem_filter.mpr ⟨hpr, beq_iff_eq.mpr hpreq⟩
        rw [hm] at this
        exact absurd this (List.not_mem_nil pr)
      | cons p ps =>
        simp only [hm, List.head?_cons, Option.isSome_some, true_iff]
        have hp : p ∈ prMatches st rr.id := hm ▸ List.mem_cons_self p ps
        rcases List.mem_filter.mp hp with ⟨hmem, hkey⟩
        exact ⟨p, hmem, beq_iff_eq.mp hkey⟩
    · cases hm : ieMatches st rr.id with
      | nil =>
        refine Or.inr ⟨by rw [herr, hm]; rfl, ?_⟩
        intro e he heq
        have : e ∈ ieMatches st rr.id :=
          List.mem_filter.mpr ⟨he, beq_iff_eq.mpr (hid ▸ heq)⟩
        rw [hm] at this
        exact absurd this (List.not_mem_nil e)
      | cons e es =>
        have he : e ∈ ieMatches st rr.id := hm ▸ List.mem_cons_self e es
        rcases List.mem_filter.mp he with ⟨hmem, hkey⟩
        refine Or.inl ⟨e, hmem, hid ▸ beq_iff_eq.mp hkey, ?_⟩
        rw [herr, hm]
        rfl

/-- C7 witness: on the populated database `wSt` the view evaluates and
its three rows carry the raw ids of the ledger. -/
theorem C7_witness :
    ([⟨1, some 7, true, none⟩, ⟨2, some 7, true, none⟩,
      ⟨3, some 55, false,
        some "validation: missing or mistyped telemetry field"⟩] :
      List IngestParseRow).map (·.raw_data_id)
      = wSt.raw_record.map (·.id) :=
  (C7_diagnostic_join_view wSt _ (by decide) rfl).1

/-- C10 counterexample: the claim asserts that evaluating the
`device_id` cast succeeds for every stored payload, i.e. that the view is
total over quarantined malformed payloads.  In the schema-valid state
`badState` a quarantined raw payload carries `device_id = "abc"`; the
payload has no ProcessedRecord, so the view must evaluate
`('abc')::int`, and the query fails instead of returning rows. -/
theorem C10_counterexample :
    wf badState ∧
    (∃ e ∈ badState.ingest_error, e.raw_data_id = 1) ∧
    (∀ pr ∈ badState.processed_record, pr.raw_data_id ≠ 1) ∧
    ingest_parse badState
      = Except.error "invalid input syntax for type integer: abc" := by
  refine ⟨by decide, ?_, by decide, by rfl⟩
  exact ⟨⟨1, "validation: missing or mistyped telemetry field", 0⟩,
    by decide, rfl⟩

/-- C10 (amended).  For every RawRecord without a matching
ProcessedRecord, whenever the `ingest_parse` view evaluates successfully
its row for that record carries exactly the integer cast of the payload's
top-level `device_id` text (null when the field is absent or the payload
is not an object) — in particular the cast succeeded for that payload.
The cast is however not total: a stored payload whose `device_id` is not
integer-formatted text makes the whole query fail, so the view is not
total over quarantined malformed payloads. -/
theorem C10_unmatched_device_id_is_cast (st : DBState)
    (rows : List IngestParseRow) (hwf : wf st)
    (h : ingest_parse st = Except.ok rows) :
    ∀ rr ∈ st.raw_record,
      (∀ pr ∈ st.processed_record, pr.raw_data_id ≠ rr.id) →
      ∃ row ∈ rows, row.raw_data_id = rr.id ∧
        castTextInt (jsonbFieldAsText rr.raw_message "device_id")
          = Except.ok row.device_id := by
  obtain ⟨_, _, _, _, _, _, hprN, _, hieN, _⟩ := hwf
  have hF := ingest_parse_forall₂ st rows hprN hieN h
  intro rr hrr hnone
  rcases forall₂_mem_left hF rr hrr with ⟨row, hrow, hR⟩
  obtain ⟨hid, _, _, hcast⟩ := ingestParseProj_ok _ row hR
  have hnil : prMatches st rr.id = [] := by
    show st.processed_record.filter (fun pr => pr.raw_data_id == rr.id) = []
    rw [List.filter_eq_nil_iff]
    intro pr hpr hbeq
    exact hnone pr hpr (beq_iff_eq.mp hbeq)
  refine ⟨row, hrow, hid, ?_⟩
  exact hcast (by rw [hnil]; rfl)

/-- C10 witness: in `wSt`, raw record 3 is quarantined (no fact), and its
view row's `device_id` is the successful cast of the payload's
`device_id` text "55". -/
theorem C10_witness :
    ∃ row ∈ ([⟨1, some 7, true, none⟩, ⟨2, some 7, true, none⟩,
        ⟨3, some 55, false,
          some "validation: missing or mistyped telemetry field"⟩] :
        List IngestParseRow),
      row.raw_data_id = 3 ∧
      castTextInt (jsonbFieldAsText (Json.jobj [("device_id", .jstr "55")])
          "device_id") = Except.ok row.device_id :=
  C10_unmatched_device_id_is_cast wSt _ (by decide) rfl
    ⟨3, .jobj [("device_id", .jstr "55")], 2⟩
    (show _ ∈ wSt.raw_record from List.mem_cons_of_mem _
      (List.mem_cons_of_mem _ (List.mem_cons_self _ _)))
    (by decide)

/-! ## Lemmas about the ingestion pipeline -/

theorem foldl_max_le {α : Type} [LinearOrder α] :
    ∀ (l : List α) (a : α),
      a ≤ l.foldl max a ∧ ∀ x ∈ l, x ≤ l.foldl max a := by
  intro l
  induction l with
  | nil =>
    intro a
    exact ⟨le_refl a, fun x hx => absurd hx (List.not_mem_nil x)⟩
  | cons y ys ih =>
    intro a
    have h := ih (max a y)
    refine ⟨le_trans (le_max_left a y) h.1, ?_⟩
    intro x hx
    rcases List.mem_cons.mp hx with rfl | hx
    · exact le_trans (le_max_right a x) h.1
    · exact h.2 x hx

theorem nextNatId_not_mem (ids : List Nat) : nextNatId ids ∉ ids := by
  intro hmem
  have h := (foldl_max_le ids 0).2 _ hmem
  unfold nextNatId at h
  omega

theorem nextIntId_not_mem (ids : List Int) : nextIntId ids ∉ ids := by
  intro hmem
  have h := (foldl_max_le ids 0).2 _ hmem
  unfold nextIntId at h
  omega

theorem nodup_map_snoc {α β : Type} (f : α → β) (l : List α) (x : α)
    (h : (l.map f).Nodup) (hx : f x ∉ l.map f) :
    ((l ++ [x]).map f).Nodup := by
  rw [List.map_append]
  refine List.Nodup.append h (List.nodup_singleton (f x)) ?_
  intro a ha hb
  rw [List.map_singleton, List.mem_singleton] at hb
  exact hx (hb ▸ ha)

theorem mem_map_append_left {α β : Type} (f : α → β) (l l' : List α) (b : β)
    (h : b ∈ l.map f) : b ∈ (l ++ l').map f := by
  rw [List.map_append]
  exact List.mem_append_left _ h

theorem quarantine_fresh (st : DBState) (rid : Nat) (reason : String)
    (now : Int) (hfresh : ∀ e ∈ st.ingest_error, e.raw_data_id ≠ rid) :
    quarantine st rid reason now
      = { st with ingest_error := st.ingest_error ++ [⟨rid, reason, now⟩] } := by
  unfold quarantine
  have hc : st.ingest_error.any (fun e => e.raw_data_id == rid) = false := by
    rw [List.any_eq_false]
    intro e he
    simpa using hfresh e he
  rw [if_neg (by simp [hc])]

theorem wf_quarantine_fresh (st : DBState) (rid : Nat) (reason : String)
    (now : Int) (hfresh : ∀ e ∈ st.ingest_error, e.raw_data_id ≠ rid)
    (hrid : rid ∈ st.raw_record.map (·.id)) (hwf : wf st) :
    wf (quarantine st rid reason now) := by
  rw [quarantine_fresh st rid reason now hfresh]
  obtain ⟨h1, h2, h3, h4, h5, h6, h7, h8, h9, f1, f2, f3, f4⟩ := hwf
  refine ⟨h1, h2, h3, h4, h5, h6, h7, h8, ?_, f1, f2, f3, ?_⟩
  · refine nodup_map_snoc (fun e : IngestError => e.raw_data_id) _ _ h9 ?_
    intro hmem
    rcases List.mem_map.mp hmem with ⟨e, he, heq⟩
    exact hfresh e he heq
  · intro e he
    rcases List.mem_append.mp he with he | he
    · exact f4 e he
    · rw [List.mem_singleton] at he
      subst he
      exact hrid

theorem wf_addRaw (st : DBState) (j : Json) (now : Int) (hwf : wf st) :
    wf (addRaw st j now) := by
  unfold addRaw
  obtain ⟨h1, h2, h3, h4, h5, h6, h7, h8, h9, f1, f2, f3, f4⟩ := hwf
  refine ⟨?_, h2, h3, h4, h5, h6, h7, h8, h9, ?_, f2, f3, ?_⟩
  · refine nodup_map_snoc (fun r : RawRecord => r.id) _ _ h1 ?_
    exact nextNatId_not_mem (st.raw_record.map (·.id))
  · intro pr hpr
    exact mem_map_append_left _ _ _ _ (f1 pr hpr)
  · intro e he
    exact mem_map_append_left _ _ _ _ (f4 e he)

theorem resolveTeleDevice_ok (st : DBState) (d : Int) (st2 : DBState)
    (h : resolveTeleDevice st d = Except.ok st2) :
    st2.raw_record = st.raw_record ∧ st2.record_type = st.record_type ∧
    st2.processed_record = st.processed_record ∧
    st2.ingest_error = st.ingest_error ∧
    d ∈ st2.device.map (·.id) ∧
    (∀ x ∈ st.device, x ∈ st2.device) ∧
    (wf st → wf st2) := by
  unfold resolveTeleDevice at h
  by_cases h1 : st.device.any (fun dv => dv.id == d) = true
  · rw [if_pos h1] at h
    injection h with h
    subst h
    refine ⟨rfl, rfl, rfl, rfl, ?_, fun x hx => hx, id⟩
    rcases List.any_eq_true.mp h1 with ⟨dv, hdv, hb⟩
    exact (beq_iff_eq.mp hb) ▸ List.mem_map_of_mem _ hdv
  · rw [if_neg h1] at h
    by_cases h2 : st.device.any (fun dv => dv.name == toString d) = true
    · rw [if_pos h2] at h
      cases h
    · rw [if_neg h2] at h
      injection h with h
      subst h
      have hid : d ∉ st.device.map (·.id) := by
        intro hmem
        rcases List.mem_map.mp hmem with ⟨dv, hdv, heq⟩
        exact h1 (List.any_eq_true.mpr ⟨dv, hdv, beq_iff_eq.mpr heq⟩)
      have hname : toString d ∉ st.device.map (·.name) := by
        intro hmem
        rcases List.mem_map.mp hmem with ⟨dv, hdv, heq⟩
        exact h2 (List.any_eq_true.mpr ⟨dv, hdv, beq_iff_eq.mpr heq⟩)
      refine ⟨rfl, rfl, rfl, rfl, ?_, ?_, ?_⟩
      · rw [List.map_append]
        exact List.mem_append_right _ (List.mem_singleton.mpr rfl)
      · intro x hx
        exact List.mem_append_left _ hx
      · intro hwf
        obtain ⟨h1', h2', h3', h4', h5', h6', h7', h8', h9', f1, f2, f3, f4⟩ :=
          hwf
        refine ⟨h1', nodup_map_snoc (fun dv : Device => dv.id) _ _ h2' hid,
          nodup_map_snoc (fun dv : Device => dv.name) _ _ h3' hname,
          h4', h5', h6', h7', h8', h9', f1, ?_, f3, f4⟩
        intro pr hpr
        exact mem_map_append_left _ _ _ _ (f2 pr hpr)

theorem resolveType_spec (st : DBState) (n : String) :
    (resolveType st n).1.raw_record = st.raw_record ∧
    (resolveType st n).1.device = st.device ∧
    (resolveType st n).1.processed_record = st.processed_record ∧
    (resolveType st n).1.ingest_error = st.ingest_error ∧
    (∃ rt ∈ (resolveType st n).1.record_type,
      rt.id = (resolveType st n).2 ∧ rt.name = n) ∧
    (∀ x ∈ st.record_type, x ∈ (resolveType st n).1.record_type) ∧
    (wf st → wf (resolveType st n).1) := by
  unfold resolveType
  cases hf : st.record_type.find? (fun rt => rt.name == n) with
  | some rt =>
    refine ⟨rfl, rfl, rfl, rfl, ?_, fun x hx => hx, id⟩
    have hb := List.find?_some hf
    exact ⟨rt, List.mem_of_find?_eq_some hf, rfl, beq_iff_eq.mp hb⟩
  | none =>
    have hname : n ∉ st.record_type.map (·.name) := by
      intro hmem
      rcases List.mem_map.mp hmem with ⟨rt, hrt, heq⟩
      have := List.find?_eq_none.mp hf rt hrt
      exact this (beq_iff_eq.mpr heq)
    refine ⟨rfl, rfl, rfl, rfl, ?_, ?_, ?_⟩
    · refine ⟨⟨nextNatId (st.record_type.map (·.id)), n, none⟩, ?_, rfl, rfl⟩
      exact List.mem_append_right _ (List.mem_singleton.mpr rfl)
    · intro x hx
      exact List.mem_append_left _ hx
    · intro hwf
      obtain ⟨h1, h2, h3, h4, h5, h6, h7, h8, h9, f1, f2, f3, f4⟩ := hwf
      refine ⟨h1, h2, h3,
        nodup_map_snoc (fun rt : RecordType => rt.id) _ _ h4
          (nextNatId_not_mem (st.record_type.map (·.id))),
        nodup_map_snoc (fun rt : RecordType => rt.name) _ _ h5 hname,
        h6, h7, h8, h9, f1, f2, ?_, f4⟩
      intro pr hpr
      exact mem_map_append_left _ _ _ _ (f3 pr hpr)

theorem writeFact_conflict (st : DBState) (rid : Nat) (d : Int) (ty : Nat)
    (t : Int) (v : Rat) (h : insertConflicts st rid d ty t v = true) :
    writeFact st rid d ty t v = (st, none) := by
  unfold writeFact
  rw [if_pos h]

theorem writeFact_fresh (st : DBState) (rid : Nat) (d : Int) (ty : Nat)
    (t : Int) (v : Rat) (h : insertConflicts st rid d ty t v = false) :
    writeFact st rid d ty t v
      = ({ st with processed_record := st.processed_record ++
            [⟨nextNatId (st.processed_record.map (·.id)), d, rid, t, ty, v⟩] },
         some (nextNatId (st.processed_record.map (·.id)))) := by
  unfold writeFact
  rw [if_neg (by simp [h])]

theorem insertConflicts_false_no_match (st : DBState) (rid : Nat) (d : Int)
    (ty : Nat) (t : Int) (v : Rat)
    (h : insertConflicts st rid d ty t v = false) :
    ∀ q ∈ st.processed_record, q.raw_data_id ≠ rid ∧
      ¬(q.device_id = d ∧ q.type = ty ∧ q.record_time = t ∧ q.value = v) := by
  intro q hq
  have := List.any_eq_false.mp h q hq
  constructor
  · intro he
    exact this (by simp [he])
  · rintro ⟨e1, e2, e3, e4⟩
    exact this (by simp [e1, e2, e3, e4])

theorem wf_writeFact_fresh (st : DBState) (rid : Nat) (d : Int) (ty : Nat)
    (t : Int) (v : Rat)
    (hconf : insertConflicts st rid d ty t v = false)
    (hrid : rid ∈ st.raw_record.map (·.id))
    (hd : d ∈ st.device.map (·.id))
    (hty : ty ∈ st.record_type.map (·.id))
    (hwf : wf st) : wf (writeFact st rid d ty t v).1 := by
  rw [writeFact_fresh st rid d ty t v hconf]
  obtain ⟨h1, h2, h3, h4, h5, h6, h7, h8, h9, f1, f2, f3, f4⟩ := hwf
  have hno := insertConflicts_false_no_match st rid d ty t v hconf
  refine ⟨h1, h2, h3, h4, h5, ?_, ?_, ?_, h9, ?_, ?_, ?_, f4⟩
  · exact nodup_map_snoc (fun q : ProcessedRecord => q.id) _ _ h6
      (nextNatId_not_mem (st.processed_record.map (·.id)))
  · refine nodup_map_snoc (fun q : ProcessedRecord => q.raw_data_id) _ _ h7 ?_
    intro hmem
    rcases List.mem_map.mp hmem with ⟨q, hq, heq⟩
    exact (hno q hq).1 heq
  · refine nodup_map_snoc logicalKey _ _ h8 ?_
    intro hmem
    rcases List.mem_map.mp hmem with ⟨q, hq, heq⟩
    refine (hno q hq).2 ?_
    unfold logicalKey at heq
    rw [Prod.mk.injEq, Prod.mk.injEq, Prod.mk.injEq] at heq
    exact ⟨heq.1, heq.2.1, heq.2.2.1, heq.2.2.2⟩
  · intro pr hpr
    rcases List.mem_append.mp hpr with hpr | hpr
    · exact f1 pr hpr
    · rw [List.mem_singleton] at hpr
      subst hpr
      exact hrid
  · intro pr hpr
    rcases List.mem_append.mp hpr with hpr | hpr
    · exact f2 pr hpr
    · rw [List.mem_singleton] at hpr
      subst hpr
      exact hd
  · intro pr hpr
    rcases List.mem_append.mp hpr with hpr | hpr
    · exact f3 pr hpr
    · rw [List.mem_singleton] at hpr
      subst hpr
      exact hty

theorem wf_addDevice (st : DBState) (serial : String) (now : Int)
    (hname : st.device.any (fun dv => dv.name == serial) = false)
    (hwf : wf st) :
    wf { st with device := st.device ++
        [⟨nextIntId (st.device.map (·.id)), serial, some now⟩] } := by
  obtain ⟨h1, h2, h3, h4, h5, h6, h7, h8, h9, f1, f2, f3, f4⟩ := hwf
  refine ⟨h1,
    nodup_map_snoc (fun dv : Device => dv.id) _ _ h2
      (nextIntId_not_mem (st.device.map (·.id))),
    nodup_map_snoc (fun dv : Device => dv.name) _ _ h3 ?_,
    h4, h5, h6, h7, h8, h9, f1, ?_, f3, f4⟩
  · intro hmem
    rcases List.mem_map.mp hmem with ⟨dv, hdv, heq⟩
    have := List.any_eq_false.mp hname dv hdv
    exact this (beq_iff_eq.mpr heq)
  · intro pr hpr
    exact mem_map_append_left _ _ _ _ (f2 pr hpr)

theorem processPayload_effects (tokenOk : String → String → Bool)
    (st : DBState) (j : Json) (now : Int) (hwf : wf st) :
    wf (processPayload tokenOk st j now).1 ∧
    (processPayload tokenOk st j now).1.raw_record
      = (addRaw st j now).raw_record ∧
    (∀ s, (processPayload tokenOk st j now).2 = IngestStatus.created s →
      (∃ F : ProcessedRecord, F.raw_data_id = nextRawId st ∧
        (processPayload tokenOk st j now).1.processed_record
          = st.processed_record ++ [F]) ∧
      (processPayload tokenOk st j now).1.ingest_error = st.ingest_error) ∧
    ((processPayload tokenOk st j now).2 = IngestStatus.duplicate →
      (processPayload tokenOk st j now).1.processed_record
        = st.processed_record ∧
      (processPayload tokenOk st j now).1.ingest_error = st.ingest_error) ∧
    ((processPayload tokenOk st j now).2 = IngestStatus.invalid →
      (processPayload tokenOk st j now).1.processed_record
        = st.processed_record ∧
      ∃ msg, (processPayload tokenOk st j now).1.ingest_error
        = st.ingest_error ++ [⟨nextRawId st, msg, now⟩]) ∧
    ((processPayload tokenOk st j now).2 = IngestStatus.startup_ok →
      (processPayload tokenOk st j now).1.processed_record
        = st.processed_record ∧
      (processPayload tokenOk st j now).1.ingest_error = st.ingest_error) := by
  have hwfR : wf (addRaw st j now) := wf_addRaw st j now hwf
  have hfreshErr : ∀ e ∈ (addRaw st j now).ingest_error,
      e.raw_data_id ≠ nextRawId st := by
    intro e he heq
    have hmem := hwf.2.2.2.2.2.2.2.2.2.2.2.2 e he
    have hmem' : nextRawId st ∈ st.raw_record.map (·.id) := heq ▸ hmem
    exact nextNatId_not_mem (st.raw_record.map (·.id)) hmem'
  have hridR : nextRawId st ∈ (addRaw st j now).raw_record.map (·.id) := by
    show nextRawId st ∈
      (st.raw_record ++ [(⟨nextRawId st, j, now⟩ : RawRecord)]).map (·.id)
    rw [List.map_append]
    exact List.mem_append_right _ (List.mem_singleton.mpr rfl)
  cases hval : validatePayload j with
  | error msg =>
    have hres : processPayload tokenOk st j now
        = (quarantine (addRaw st j now) (nextRawId st) msg now, .invalid) := by
      unfold processPayload
      rw [hval]
    have hq := quarantine_fresh (addRaw st j now) (nextRawId st) msg now
      hfreshErr
    rw [hres, hq]
    refine ⟨?_, rfl, ?_, ?_, ?_, ?_⟩
    · rw [← hq]
      exact wf_quarantine_fresh (addRaw st j now) (nextRawId st) msg now
        hfreshErr hridR hwfR
    · intro s hs; cases hs
    · intro hs; cases hs
    · intro _; exact ⟨rfl, msg, rfl⟩
    · intro hs; cases hs
  | ok pe =>
    cases pe with
    | startup e =>
      by_cases htok : tokenOk e.serial e.provision_token = true
      · by_cases hdev : (addRaw st j now).device.any
            (fun dv => dv.name == e.serial) = true
        · have hres : processPayload tokenOk st j now
              = (addRaw st j now, .startup_ok) := by
            unfold processPayload
            rw [hval]
            simp [htok, hdev]
          rw [hres]
          refine ⟨hwfR, rfl, ?_, ?_, ?_, fun _ => ⟨rfl, rfl⟩⟩
          · intro s hs; cases hs
          · intro hs; cases hs
          · intro hs; cases hs
        · have hres : processPayload tokenOk st j now
              = ({ addRaw st j now with device := (addRaw st j now).device ++
                    [⟨nextIntId ((addRaw st j now).device.map (·.id)),
                      e.serial, some now⟩] }, .startup_ok) := by
            unfold processPayload
            rw [hval]
            simp [htok, hdev]
          rw [hres]
          refine ⟨?_, rfl, ?_, ?_, ?_, fun _ => ⟨rfl, rfl⟩⟩
          · exact wf_addDevice (addRaw st j now) e.serial now
              (by simpa using hdev) hwfR
          · intro s hs; cases hs
          · intro hs; cases hs
          · intro hs; cases hs
      · have hres : processPayload tokenOk st j now
            = (quarantine (addRaw st j now) (nextRawId st)
                "auth: invalid_provision_token" now, .invalid) := by
          unfold processPayload
          rw [hval]
          simp [htok]
        have hq := quarantine_fresh (addRaw st j now) (nextRawId st)
          "auth: invalid_provision_token" now hfreshErr
        rw [hres, hq]
        refine ⟨?_, rfl, ?_, ?_, ?_, ?_⟩
        · rw [← hq]
          exact wf_quarantine_fresh (addRaw st j now) (nextRawId st)
            "auth: invalid_provision_token" now hfreshErr hridR hwfR
        · intro s hs; cases hs
        · intro hs; cases hs
        · intro _; exact ⟨rfl, "auth: invalid_provision_token", rfl⟩
        · intro hs; cases hs
    | tele e =>
      cases hdev : resolveTeleDevice (addRaw st j now) e.device_id with
      | error msg =>
        have hres : processPayload tokenOk st j now
            = (quarantine (addRaw st j now) (nextRawId st) msg now,
              .invalid) := by
          unfold processPayload
          rw [hval]
          dsimp only
          rw [hdev]
        have hq := quarantine_fresh (addRaw st j now) (nextRawId st) msg now
          hfreshErr
        rw [hres, hq]
        refine ⟨?_, rfl, ?_, ?_, ?_, ?_⟩
        · rw [← hq]
          exact wf_quarantine_fresh (addRaw st j now) (nextRawId st) msg now
            hfreshErr hridR hwfR
        · intro s hs; cases hs
        · intro hs; cases hs
        · intro _; exact ⟨rfl, msg, rfl⟩
        · intro hs; cases hs
      | ok st2 =>
        obtain ⟨hraw2, hrt2, hpr2, hie2, hd2, _, hwf2⟩ :=
          resolveTeleDevice_ok _ e.device_id st2 hdev
        obtain ⟨hraw3, hdev3, hpr3, hie3, ⟨rt3, hrt3, hrtid3, _⟩, _, hwf3⟩ :=
          resolveType_spec st2 e.event_type
        have hwf3' := hwf3 (hwf2 hwfR)
        by_cases hconf : insertConflicts (resolveType st2 e.event_type).1
            (nextRawId st) e.device_id (resolveType st2 e.event_type).2
            e.record_time e.value = true
        · have hres : processPayload tokenOk st j now
              = ((resolveType st2 e.event_type).1, .duplicate) := by
            unfold processPayload
            rw [hval]
            dsimp only
            rw [hdev]
            dsimp only
            rw [writeFact_conflict _ _ _ _ _ _ hconf]
          rw [hres]
          refine ⟨hwf3', by rw [hraw3, hraw2], ?_, ?_, ?_, ?_⟩
          · intro s hs; cases hs
          · intro _
            exact ⟨by rw [hpr3, hpr2]; rfl, by rw [hie3, hie2]; rfl⟩
          · intro hs; cases hs
          · intro hs; cases hs
        · have hconf' : insertConflicts (resolveType st2 e.event_type).1
              (nextRawId st) e.device_id (resolveType st2 e.event_type).2
              e.record_time e.value = false := by
            simpa using hconf
          have hres : processPayload tokenOk st j now
              = ({ (resolveType st2 e.event_type).1 with processed_record :=
                    (resolveType st2 e.event_type).1.processed_record ++
                    [⟨nextNatId
                        ((resolveType st2 e.event_type).1.processed_record.map
                          (·.id)),
                      e.device_id, nextRawId st, e.record_time,
                      (resolveType st2 e.event_type).2, e.value⟩] },
                  .created (nextNatId
                    ((resolveType st2 e.event_type).1.processed_record.map
                      (·.id)))) := by
            unfold processPayload
            rw [hval]
            dsimp only
            rw [hdev]
            dsimp only
            rw [writeFact_fresh _ _ _ _ _ _ hconf']
          rw [hres]
          refine ⟨?_, by rw [hraw3, hraw2], ?_, ?_, ?_, ?_⟩
          rotate_left 2
          · intro hs; cases hs
          · intro hs; cases hs
          · intro hs; cases hs
          · have h := wf_writeFact_fresh (resolveType st2 e.event_type).1
              (nextRawId st) e.device_id (resolveType st2 e.event_type).2
              e.record_time e.value hconf'
              (by rw [hraw3, hraw2]; exact hridR)
              (by rw [hdev3]; exact hd2)
              (hrtid3 ▸ List.mem_map_of_mem (fun rt : RecordType => rt.id) hrt3)
              hwf3'
            rw [writeFact_fresh _ _ _ _ _ _ hconf'] at h
            exact h
          · intro s _
            refine ⟨⟨⟨nextNatId
                ((resolveType st2 e.event_type).1.processed_record.map (·.id)),
              e.device_id, nextRawId st, e.record_time,
              (resolveType st2 e.event_type).2, e.value⟩, rfl, ?_⟩,
              by rw [hie3, hie2]; rfl⟩
            rw [hpr3, hpr2]
            rfl

theorem prMatches_nil (st : DBState)
    (hFK : ∀ pr ∈ st.processed_record,
      pr.raw_data_id ∈ st.raw_record.map (·.id))
    (rid : Nat) (hrid : rid ∉ st.raw_record.map (·.id)) :
    prMatches st rid = [] := by
  show st.processed_record.filter (fun pr => pr.raw_data_id == rid) = []
  rw [List.filter_eq_nil_iff]
  intro pr hpr hbeq
  exact hrid ((beq_iff_eq.mp hbeq) ▸ hFK pr hpr)

theorem ieMatches_nil (st : DBState)
    (hFK : ∀ e ∈ st.ingest_error, e.raw_data_id ∈ st.raw_record.map (·.id))
    (rid : Nat) (hrid : rid ∉ st.raw_record.map (·.id)) :
    ieMatches st rid = [] := by
  show st.ingest_error.filter (fun e => e.raw_data_id == rid) = []
  rw [List.filter_eq_nil_iff]
  intro e he hbeq
  exact hrid ((beq_iff_eq.mp hbeq) ▸ hFK e he)

theorem prMatches_congr (st st' : DBState)
    (h : st.processed_record = st'.processed_record) (rid : Nat) :
    prMatches st rid = prMatches st' rid := by
  unfold prMatches
  rw [h]

theorem ieMatches_congr (st st' : DBState)
    (h : st.ingest_error = st'.ingest_error) (rid : Nat) :
    ieMatches st rid = ieMatches st' rid := by
  unfold ieMatches
  rw [h]

theorem nextRawId_fresh (st : DBState) :
    nextRawId st ∉ st.raw_record.map (·.id) :=
  nextNatId_not_mem (st.raw_record.map (·.id))

/-- C2 counterexample: submitting Scenario A's payload twice against the
seeded database leaves the second RawRecord (id 2) with neither a
ProcessedRecord nor an IngestError — the logical duplicate is suppressed
by `ON CONFLICT DO NOTHING` and a duplicate is not an error — refuting
"never neither". -/
theorem C2_counterexample :
    (2 : Nat) ∈ dupRun2.1.raw_record.map (·.id) ∧
    dupRun2.2 = IngestStatus.duplicate ∧
    prCount dupRun2.1 2 = 0 ∧ ieCount dupRun2.1 2 = 0 := by
  decide

/-- C2 (amended).  Processing one payload against a schema-valid
database preserves the schema invariants and appends exactly one
RawRecord; that raw record never gets both a ProcessedRecord and an
IngestError; it gets exactly one ProcessedRecord and no IngestError when
the writer reports `created`, exactly one IngestError and no
ProcessedRecord when processing fails (`invalid`), and — contrary to the
original claim's "never neither" — neither when the fact insert is
suppressed as a logical duplicate or the payload is a successful
device-startup event.  Rows attached to other raw records are
untouched. -/
theorem C2_quarantine_completeness_amended (tokenOk : String → String → Bool)
    (st : DBState) (j : Json) (now : Int) (hwf : wf st) :
    wf (processPayload tokenOk st j now).1 ∧
    nextRawId st ∈ (processPayload tokenOk st j now).1.raw_record.map (·.id) ∧
    ¬(1 ≤ prCount (processPayload tokenOk st j now).1 (nextRawId st) ∧
      1 ≤ ieCount (processPayload tokenOk st j now).1 (nextRawId st)) ∧
    (∀ s, (processPayload tokenOk st j now).2 = IngestStatus.created s →
      prCount (processPayload tokenOk st j now).1 (nextRawId st) = 1 ∧
      ieCount (processPayload tokenOk st j now).1 (nextRawId st) = 0) ∧
    ((processPayload tokenOk st j now).2 = IngestStatus.invalid →
      prCount (processPayload tokenOk st j now).1 (nextRawId st) = 0 ∧
      ieCount (processPayload tokenOk st j now).1 (nextRawId st) = 1) ∧
    ((processPayload tokenOk st j now).2 = IngestStatus.duplicate ∨
     (processPayload tokenOk st j now).2 = IngestStatus.startup_ok →
      prCount (processPayload tokenOk st j now).1 (nextRawId st) = 0 ∧
      ieCount (processPayload tokenOk st j now).1 (nextRawId st) = 0) ∧
    (∀ rid', rid' ≠ nextRawId st →
      prMatches (processPayload tokenOk st j now).1 rid' = prMatches st rid' ∧
      ieMatches (processPayload tokenOk st j now).1 rid'
        = ieMatches st rid') := by
  obtain ⟨hwf', hraw, hcre, hdup, hinv, hsu⟩ :=
    processPayload_effects tokenOk st j now hwf
  obtain ⟨_, _, _, _, _, _, _, _, _, fk1, _, _, fk4⟩ := hwf
  have hrid := nextRawId_fresh st
  have hpr0 : prMatches st (nextRawId st) = [] := prMatches_nil st fk1 _ hrid
  have hie0 : ieMatches st (nextRawId st) = [] := ieMatches_nil st fk4 _ hrid
  have hmem : nextRawId st ∈
      (processPayload tokenOk st j now).1.raw_record.map (·.id) := by
    rw [hraw]
    show nextRawId st ∈
      (st.raw_record ++ [(⟨nextRawId st, j, now⟩ : RawRecord)]).map (·.id)
    rw [List.map_append]
    exact List.mem_append_right _ (List.mem_singleton.mpr rfl)
  have hcounts :
      (prCount (processPayload tokenOk st j now).1 (nextRawId st) = 1 ∧
        ieCount (processPayload tokenOk st j now).1 (nextRawId st) = 0 ∧
        ∃ s, (processPayload tokenOk st j now).2 = IngestStatus.created s) ∨
      (prCount (processPayload tokenOk st j now).1 (nextRawId st) = 0 ∧
        ieCount (processPayload tokenOk st j now).1 (nextRawId st) = 1 ∧
        (processPayload tokenOk st j now).2 = IngestStatus.invalid) ∨
      (prCount (processPayload tokenOk st j now).1 (nextRawId st) = 0 ∧
        ieCount (processPayload tokenOk st j now).1 (nextRawId st) = 0 ∧
        ((processPayload tokenOk st j now).2 = IngestStatus.duplicate ∨
         (processPayload tokenOk st j now).2 = IngestStatus.startup_ok)) := by
    cases hst : (processPayload tokenOk st j now).2 with
    | created s =>
      obtain ⟨⟨F, hFraw, hFpr⟩, hFie⟩ := hcre s hst
      refine Or.inl ⟨?_, ?_, s, rfl⟩
      · unfold prCount
        show (List.filter (fun pr => pr.raw_data_id == nextRawId st)
          (processPayload tokenOk st j now).1.processed_record).length = 1
        rw [hFpr, List.filter_append]
        have h1 : st.processed_record.filter
            (fun pr => pr.raw_data_id == nextRawId st) = [] := hpr0
        rw [h1]
        simp [hFraw]
      · unfold ieCount
        rw [ieMatches_congr _ st hFie, hie0]
        rfl
    | duplicate =>
      obtain ⟨hFpr, hFie⟩ := hdup hst
      refine Or.inr (Or.inr ⟨?_, ?_, Or.inl rfl⟩)
      · unfold prCount
        rw [prMatches_congr _ st hFpr, hpr0]
        rfl
      · unfold ieCount
        rw [ieMatches_congr _ st hFie, hie0]
        rfl
    | invalid =>
      obtain ⟨hFpr, msg, hFie⟩ := hinv hst
      refine Or.inr (Or.inl ⟨?_, ?_, rfl⟩)
      · unfold prCount
        rw [prMatches_congr _ st hFpr, hpr0]
        rfl
      · unfold ieCount
        show (List.filter (fun e => e.raw_data_id == nextRawId st)
          (processPayload tokenOk st j now).1.ingest_error).length = 1
        rw [hFie, List.filter_append]
        have h1 : st.ingest_error.filter
            (fun e => e.raw_data_id == nextRawId st) = [] := hie0
        rw [h1]
        simp
    | startup_ok =>
      obtain ⟨hFpr, hFie⟩ := hsu hst
      refine Or.inr (Or.inr ⟨?_, ?_, Or.inr rfl⟩)
      · unfold prCount
        rw [prMatches_congr _ st hFpr, hpr0]
        rfl
      · unfold ieCount
        rw [ieMatches_congr _ st hFie, hie0]
        rfl
  have hframe : ∀ rid', rid' ≠ nextRawId st →
      prMatches (processPayload tokenOk st j now).1 rid' = prMatches st rid' ∧
      ieMatches (processPayload tokenOk st j now).1 rid'
        = ieMatches st rid' := by
    intro rid' hne
    cases hst : (processPayload tokenOk st j now).2 with
    | created s =>
      obtain ⟨⟨F, hFraw, hFpr⟩, hFie⟩ := hcre s hst
      constructor
      · have hb : (F.raw_data_id == rid') = false := by
          rw [hFraw]
          exact beq_eq_false_iff_ne.mpr (Ne.symm hne)
        show List.filter (fun pr => pr.raw_data_id == rid')
          (processPayload tokenOk st j now).1.processed_record = _
        rw [hFpr, List.filter_append]
        have hsing : List.filter (fun pr => pr.raw_data_id == rid') [F]
            = [] := by
          simp [hb]
        rw [hsing, List.append_nil]
        rfl
      · exact ieMatches_congr _ st hFie rid'
    | duplicate =>
      obtain ⟨hFpr, hFie⟩ := hdup hst
      exact ⟨prMatches_congr _ st hFpr rid', ieMatches_congr _ st hFie rid'⟩
    | invalid =>
      obtain ⟨hFpr, msg, hFie⟩ := hinv hst
      constructor
      · exact prMatches_congr _ st hFpr rid'
      · show List.filter (fun e => e.raw_data_id == rid')
          (processPayload tokenOk st j now).1.ingest_error = _
        rw [hFie, List.filter_append]
        have hsing : List.filter (fun e => e.raw_data_id == rid')
            [(⟨nextRawId st, msg, now⟩ : IngestError)] = [] := by
          simp [beq_eq_false_iff_ne.mpr (Ne.symm hne)]
        rw [hsing, List.append_nil]
        rfl
    | startup_ok =>
      obtain ⟨hFpr, hFie⟩ := hsu hst
      exact ⟨prMatches_congr _ st hFpr rid', ieMatches_congr _ st hFie rid'⟩
  refine ⟨hwf', hmem, ?_, ?_, ?_, ?_, hframe⟩
  · rintro ⟨hp, he⟩
    rcases hcounts with ⟨h1, h2, _⟩ | ⟨h1, h2, _⟩ | ⟨h1, h2, _⟩ <;> omega
  · intro s hs
    rcases hcounts with ⟨h1, h2, _⟩ | ⟨h1, h2, hstv⟩ | ⟨h1, h2, hstv⟩
    · exact ⟨h1, h2⟩
    · rw [hs] at hstv; cases hstv
    · rcases hstv with hstv | hstv <;> rw [hs] at hstv <;> cases hstv
  · intro hs
    rcases hcounts with ⟨h1, h2, s, hstv⟩ | ⟨h1, h2, _⟩ | ⟨h1, h2, hstv⟩
    · rw [hs] at hstv; cases hstv
    · exact ⟨h1, h2⟩
    · rcases hstv with hstv | hstv <;> rw [hs] at hstv <;> cases hstv
  · intro hs
    rcases hcounts with ⟨h1, h2, s, hstv⟩ | ⟨h1, h2, hstv⟩ | ⟨h1, h2, _⟩
    · rcases hs with hs | hs <;> rw [hs] at hstv <;> cases hstv
    · rcases hs with hs | hs <;> rw [hs] at hstv <;> cases hstv
    · exact ⟨h1, h2⟩

/-- C2 witness: the first submission of Scenario A's payload against the
seeded database is `created`, and its raw record (id 1) has exactly one
ProcessedRecord and no IngestError. -/
theorem C2_witness :
    prCount dupRun1.1 1 = 1 ∧ ieCount dupRun1.1 1 = 0 :=
  (C2_quarantine_completeness_amended (fun _ _ => true) seededState
    scenarioAPayload 0 (by decide)).2.2.2.1 1 (by decide)

theorem find?_of_name_nodup :
    ∀ l : List RecordType, (l.map (·.name)).Nodup →
      ∀ rt ∈ l, l.find? (fun x => x.name == rt.name) = some rt := by
  intro l
  induction l with
  | nil => intro _ rt hrt; exact absurd hrt (List.not_mem_nil rt)
  | cons x xs ih =>
    intro hnd rt hrt
    rw [List.map_cons, List.nodup_cons] at hnd
    rw [List.find?_cons]
    by_cases hx : (x.name == rt.name) = true
    · simp only [hx]
      rcases List.mem_cons.mp hrt with hrt | hrt
      · rw [hrt]
      · exact absurd ((beq_iff_eq.mp hx) ▸ List.mem_map_of_mem
          (fun r : RecordType => r.name) hrt) hnd.1
    · simp only [Bool.not_eq_true] at hx
      simp only [hx]
      rcases List.mem_cons.mp hrt with hrt | hrt
      · subst hrt
        simp at hx
      · exact ih hnd.2 rt hrt

theorem processPayload_created_inv (tokenOk : String → String → Bool)
    (st : DBState) (j : Json) (now : Int) (e : TelemetryEvent) (hwf : wf st)
    (hval : validatePayload j = Except.ok (.tele e)) (st1 : DBState)
    (fid : Nat)
    (hrun : processPayload tokenOk st j now = (st1, IngestStatus.created fid)) :
    wf st1 ∧
    e.device_id ∈ st1.device.map (·.id) ∧
    ∃ tid, (∃ rt ∈ st1.record_type, rt.id = tid ∧ rt.name = e.event_type) ∧
      ∃ F : ProcessedRecord, F ∈ st1.processed_record ∧
        F.device_id = e.device_id ∧ F.type = tid ∧
        F.record_time = e.record_time ∧ F.value = e.value ∧
        st1.processed_record = st.processed_record ++ [F] := by
  have hwfR : wf (addRaw st j now) := wf_addRaw st j now hwf
  unfold processPayload at hrun
  rw [hval] at hrun
  dsimp only at hrun
  cases hdev : resolveTeleDevice (addRaw st j now) e.device_id with
  | error msg =>
    rw [hdev] at hrun
    have h2 := congrArg Prod.snd hrun
    simp at h2
  | ok st2 =>
    rw [hdev] at hrun
    dsimp only at hrun
    obtain ⟨hraw2, hrt2, hpr2, hie2, hd2, _, hwf2⟩ :=
      resolveTeleDevice_ok _ e.device_id st2 hdev
    obtain ⟨hraw3, hdev3, hpr3, hie3, ⟨rt3, hrt3, hrtid3, hrtn3⟩, _, hwf3⟩ :=
      resolveType_spec st2 e.event_type
    have hwf3' := hwf3 (hwf2 hwfR)
    by_cases hconf : insertConflicts (resolveType st2 e.event_type).1
        (nextRawId st) e.device_id (resolveType st2 e.event_type).2
        e.record_time e.value = true
    · rw [writeFact_conflict _ _ _ _ _ _ hconf] at hrun
      have h2 := congrArg Prod.snd hrun
      simp at h2
    · have hconf' : insertConflicts (resolveType st2 e.event_type).1
          (nextRawId st) e.device_id (resolveType st2 e.event_type).2
          e.record_time e.value = false := by simpa using hconf
      rw [writeFact_fresh _ _ _ _ _ _ hconf'] at hrun
      rw [Prod.mk.injEq] at hrun
      obtain ⟨h1, _⟩ := hrun
      subst h1
      refine ⟨?_, ?_, (resolveType st2 e.event_type).2,
        ⟨rt3, hrt3, hrtid3, hrtn3⟩, ?_⟩
      · have h := wf_writeFact_fresh (resolveType st2 e.event_type).1
          (nextRawId st) e.device_id (resolveType st2 e.event_type).2
          e.record_time e.value hconf'
          (by rw [hraw3, hraw2]
              show nextRawId st ∈ (st.raw_record ++
                [(⟨nextRawId st, j, now⟩ : RawRecord)]).map (·.id)
              rw [List.map_append]
              exact List.mem_append_right _ (List.mem_singleton.mpr rfl))
          (by rw [hdev3]; exact hd2)
          (hrtid3 ▸ List.mem_map_of_mem (fun rt : RecordType => rt.id) hrt3)
          hwf3'
        rw [writeFact_fresh _ _ _ _ _ _ hconf'] at h
        exact h
      · show e.device_id ∈
          (resolveType st2 e.event_type).1.device.map (·.id)
        rw [hdev3]
        exact hd2
      · refine ⟨⟨nextNatId
            ((resolveType st2 e.event_type).1.processed_record.map (·.id)),
          e.device_id, nextRawId st, e.record_time,
          (resolveType st2 e.event_type).2, e.value⟩, ?_, rfl, rfl, rfl, rfl,
          ?_⟩
        · show _ ∈ (resolveType st2 e.event_type).1.processed_record ++ _
          exact List.mem_append_right _ (List.mem_singleton.mpr rfl)
        · show (resolveType st2 e.event_type).1.processed_record ++ _
            = st.processed_record ++ _
          rw [hpr3, hpr2]
          rfl

theorem processPayload_duplicate_of_existing (tokenOk : String → String → Bool)
    (st1 : DBState) (j' : Json) (now' : Int) (e' : TelemetryEvent)
    (hwf1 : wf st1) (hval : validatePayload j' = Except.ok (.tele e'))
    (hdev : e'.device_id ∈ st1.device.map (·.id)) (tid : Nat)
    (hrt : ∃ rt ∈ st1.record_type, rt.id = tid ∧ rt.name = e'.event_type)
    (F : ProcessedRecord) (hF : F ∈ st1.processed_record)
    (hFd : F.device_id = e'.device_id) (hFt : F.type = tid)
    (hFtime : F.record_time = e'.record_time) (hFv : F.value = e'.value) :
    (processPayload tokenOk st1 j' now').2 = IngestStatus.duplicate ∧
    (processPayload tokenOk st1 j' now').1.processed_record
      = st1.processed_record := by
  obtain ⟨rt, hrtmem, hrtid, hrtname⟩ := hrt
  have hany : ((addRaw st1 j' now').device.any
      (fun dv => dv.id == e'.device_id)) = true := by
    rcases List.mem_map.mp hdev with ⟨dv, hdv, heq⟩
    exact List.any_eq_true.mpr ⟨dv, hdv, beq_iff_eq.mpr heq⟩
  have hresdev : resolveTeleDevice (addRaw st1 j' now') e'.device_id
      = Except.ok (addRaw st1 j' now') := by
    unfold resolveTeleDevice
    rw [if_pos hany]
  have hnamesN : ((addRaw st1 j' now').record_type.map (·.name)).Nodup :=
    hwf1.2.2.2.2.1
  have hfind : (addRaw st1 j' now').record_type.find?
      (fun x => x.name == rt.name) = some rt :=
    find?_of_name_nodup (addRaw st1 j' now').record_type hnamesN rt hrtmem
  have hrestype : resolveType (addRaw st1 j' now') e'.event_type
      = (addRaw st1 j' now', rt.id) := by
    unfold resolveType
    rw [← hrtname, hfind]
  have hconf : insertConflicts (addRaw st1 j' now') (nextRawId st1)
      e'.device_id rt.id e'.record_time e'.value = true := by
    refine List.any_eq_true.mpr ⟨F, hF, ?_⟩
    have : (F.device_id == e'.device_id && F.type == rt.id &&
        F.record_time == e'.record_time && F.value == e'.value) = true := by
      rw [hFd, hFtime, hFv, hrtid, hFt]
      simp
    simp [this]
  have hres : processPayload tokenOk st1 j' now'
      = (addRaw st1 j' now', .duplicate) := by
    unfold processPayload
    rw [hval]
    dsimp only
    rw [hresdev]
    dsimp only
    rw [hrestype]
    dsimp only
    rw [writeFact_conflict _ _ _ _ _ _ hconf]
  rw [hres]
  exact ⟨rfl, rfl⟩

/-- C1.  Idempotency: under the schema invariants any two distinct
ProcessedRecord rows differ both in `raw_record_id` and in their
`(device_id, type, record_time, value)` key; and submitting the identical
payload twice — or two payloads carrying the same logical event under
different raw ids — yields exactly one ProcessedRecord: the first
submission appends exactly one fact and the second is suppressed as a
duplicate, appending none. -/
theorem C1_idempotency :
    (∀ st : DBState, wf st →
      ∀ p ∈ st.processed_record, ∀ q ∈ st.processed_record, p ≠ q →
        p.raw_data_id ≠ q.raw_data_id ∧ logicalKey p ≠ logicalKey q) ∧
    (∀ (tokenOk : String → String → Bool) (st : DBState) (j j' : Json)
        (e e' : TelemetryEvent) (now now' : Int) (st1 : DBState) (fid : Nat),
      wf st → validatePayload j = Except.ok (.tele e) →
      validatePayload j' = Except.ok (.tele e') →
      e.device_id = e'.device_id → e.event_type = e'.event_type →
      e.record_time = e'.record_time → e.value = e'.value →
      processPayload tokenOk st j now = (st1, IngestStatus.created fid) →
      (∃ F, st1.processed_record = st.processed_record ++ [F]) ∧
      (processPayload tokenOk st1 j' now').2 = IngestStatus.duplicate ∧
      (processPayload tokenOk st1 j' now').1.processed_record
        = st1.processed_record) := by
  constructor
  · intro st hwf p hp q hq hne
    obtain ⟨_, _, _, _, _, _, h7, h8, _⟩ := hwf
    constructor
    · intro heq
      exact hne (List.inj_on_of_nodup_map h7 hp hq heq)
    · intro heq
      exact hne (List.inj_on_of_nodup_map h8 hp hq heq)
  · intro tokenOk st j j' e e' now now' st1 fid hwf hval hval' hd ht htime hv
      hrun
    obtain ⟨hwf1, hdev1, tid, hrt1, F, hF, hFd, hFt, hFtime, hFv, hshape⟩ :=
      processPayload_created_inv tokenOk st j now e hwf hval st1 fid hrun
    have hdup := processPayload_duplicate_of_existing tokenOk st1 j' now' e'
      hwf1 hval' (hd ▸ hdev1) tid (ht ▸ hrt1) F hF (hd ▸ hFd) hFt
      (htime ▸ hFtime) (hv ▸ hFv)
    exact ⟨⟨F, hshape⟩, hdup.1, hdup.2⟩

/-- C1 witness: Scenario A's payload submitted twice against the seeded
database — the first run stores exactly one fact, the second is a
duplicate and stores nothing. -/
theorem C1_witness :
    (∃ F, dupRun1.1.processed_record
        = seededState.processed_record ++ [F]) ∧
    dupRun2.2 = IngestStatus.duplicate ∧
    dupRun2.1.processed_record = dupRun1.1.processed_record :=
  C1_idempotency.2 (fun _ _ => true) seededState scenarioAPayload
    scenarioAPayload ⟨42, "platform_extension_ticks", 100, 72750268800⟩
    ⟨42, "platform_extension_ticks", 100, 72750268800⟩ 0 1 dupRun1.1 1
    (by decide) rfl rfl rfl rfl rfl rfl rfl

end IoT
